import Mathlib

/-!
Verification development for the flashcroquis Django/QGIS backend.

The Python sources under `ApiFlashCroquis/` (views.py, qgis_utils.py,
serializers.py) are shallowly embedded below: pure request-handling logic
becomes Lean functions, Python dictionaries become association lists,
Python exceptions become `Except`/`Option` plumbing, and calls into the
external QGIS/Qt toolkit are either modelled as explicit parameters or as
data recorded in the result.  Coordinates and sizes are modelled as `Rat`
(the Python floats only flow through the logic verified here; no rounding
behaviour of IEEE arithmetic is relied upon by any statement).
-/

set_option maxHeartbeats 1000000

namespace FlashCroquis

/-! ## Generic helpers: Python dict / truthiness modelling -/

/-- Python dictionary lookup (`d[k]` when present, else `None` for `.get`). -/
def dictLookup (t : List (String × α)) (k : String) : Option α :=
  List.lookup k t

/-- Python dictionary assignment `d[k] = v`: replaces the first binding of
`k` if present, otherwise appends the new binding. -/
def dictInsert : List (String × α) → String → α → List (String × α)
  | [], k, v => [(k, v)]
  | (k', v') :: rest, k, v =>
      if k' = k then (k, v) :: rest else (k', v') :: dictInsert rest k v

/-- Truthiness of an optional Python string (`if session_id:`):
`None` and the empty string are falsy. -/
def pyTruthy : Option String → Bool
  | none => false
  | some s => !(s == "")

/-- Reading a required key of a Python dict (`conf["id"]`): a missing key
raises `KeyError`, modelled as `Except.error`. -/
def reqKey (name : String) : Option α → Except String α
  | some a => Except.ok a
  | none => Except.error ((("KeyError: ") ++ name))

/-- Python `str.lower()` on the ASCII configuration strings used here. -/
def pyLower (s : String) : String :=
  ⟨s.data.map Char.toLower⟩

/-- Character-level worker for `pySplitComma`. -/
def splitCommaChars : List Char → List Char → List (List Char)
  | [], acc => [acc.reverse]
  | c :: rest, acc =>
      if c = ',' then acc.reverse :: splitCommaChars rest []
      else splitCommaChars rest (c :: acc)

/-- Python `s.split(',')`: split at every comma, keeping empty pieces
(the empty string splits to `[""]`). -/
def pySplitComma (s : String) : List String :=
  (splitCommaChars s.data []).map (fun cs => ⟨cs⟩)

/-! ## Session registry (`qgis_utils.get_project_session`, lines 43-53)

`project_sessions` is a module-level dict mapping session-id strings to
`ProjectSessionManager` objects.  The manager also carries a QGIS project
handle and timestamps; those fields never influence the registry logic
verified here, so only the `session_id` field is carried.  The
`uuid.uuid4()` call of the constructor is an external source of
fresh names and is passed in as the `fresh` argument. -/

structure ProjectSessionManager where
  session_id : String
  deriving Repr, DecidableEq

/-- `ProjectSessionManager.__init__`: `self.session_id = session_id or str(uuid.uuid4())`. -/
def newSessionManager (fresh : String) (session_id : Option String) : ProjectSessionManager :=
  if pyTruthy session_id then { session_id := session_id.getD ("") }
  else { session_id := fresh }

abbrev SessionTable := List (String × ProjectSessionManager)

/-- The `else` branch of `get_project_session`: build a manager, replace a
falsy id by the manager's generated id, register, and return. -/
def registerNewSession (fresh : String) (session_id : Option String)
    (table : SessionTable) : (ProjectSessionManager × String) × SessionTable :=
  let session := newSessionManager fresh session_id
  let sid := if pyTruthy session_id then session_id.getD ("") else session.session_id
  ((session, sid), dictInsert table sid session)

/-- `qgis_utils.get_project_session(session_id)`, acting on the
`project_sessions` table (threaded explicitly).  Returns the
`(session, session_id)` pair together with the table after the call. -/
def get_project_session (fresh : String) (session_id : Option String)
    (table : SessionTable) : (ProjectSessionManager × String) × SessionTable :=
  match session_id with
  | some s =>
      if s = "" then registerNewSession fresh session_id table
      else
        match dictLookup table s with
        | some sess => ((sess, s), table)
        | none => registerNewSession fresh (some s) table
  | none => registerNewSession fresh none table

/-! ## Parcel geometry (`qgis_utils.py`, lines 338-477)

Points are `QgsPointXY` values; their coordinates are modelled as `Rat`.
-/

structure Pt where
  x : Rat
  y : Rat
  deriving Repr, DecidableEq

instance : Inhabited Pt := ⟨⟨0, 0⟩⟩

/-- The cyclic successor pairing `zip(points, points[1:] + [points[0]])`
used by `is_clockwise` (empty input gives no pairs; the Python would raise
an IndexError on `points[0]`, but `is_clockwise` is only ever called on
nonempty lists). -/
def cyclicPairs : List Pt → List (Pt × Pt)
  | [] => []
  | p :: rest => (p :: rest).zip (rest ++ [p])

/-- Summand of the shoelace-style test: `(p2.x() - p1.x()) * (p2.y() + p1.y())`. -/
def edgeTerm (pq : Pt × Pt) : Rat :=
  (pq.2.x - pq.1.x) * (pq.2.y + pq.1.y)

/-- The sum computed inside `is_clockwise`. -/
def shoelaceS (ps : List Pt) : Rat :=
  ((cyclicPairs ps).map edgeTerm).sum

/-- Consecutive (non-cyclic) pairs of a vertex list; used to reason about
`shoelaceS` under rotation and reversal. -/
def consecPairs (ps : List Pt) : List (Pt × Pt) :=
  ps.zip ps.tail

/-- Edge-term sum of a pair list. -/
def pairSum (l : List (Pt × Pt)) : Rat :=
  (l.map edgeTerm).sum

/-- `qgis_utils.is_clockwise(points)`: the cyclic sum is strictly positive. -/
def is_clockwise (ps : List Pt) : Bool :=
  decide (0 < shoelaceS ps)

/-- First index of the maximal `y` coordinate:
`max(range(len(points)), key=lambda i: points[i].y())`.  Python's `max`
keeps the current maximum on ties, hence returns the first maximising
index; the fold below replaces the best index only on a strictly larger
`y`. -/
def northIdx (ps : List Pt) : Nat :=
  (List.range ps.length).foldl
    (fun best i => if (ps.getD best default).y < (ps.getD i default).y then i else best) 0

/-- `qgis_utils.shift_to_northernmost(points)`: rotate the list so that it
starts at the first point of maximal `y`. -/
def shift_to_northernmost (ps : List Pt) : List Pt :=
  ps.drop (northIdx ps) ++ ps.take (northIdx ps)

/-- `northIdx` generalised over the fold seed; proof device for the
argmax properties of `northIdx` (which is `northFoldAux ps 0 ps.length`). -/
def northFoldAux (ps : List Pt) (b n : Nat) : Nat :=
  (List.range n).foldl
    (fun best i => if (ps.getD best default).y < (ps.getD i default).y then i else best) b

/- Python `math.hypot(p2.x - p1.x, p2.y - p1.y)` followed by
`round(_, 2)` (`calculate_distance` + the rounding at the call site)
returns an irrational square root in general; the whole numeric call is
external to the verified logic and is passed in as a parameter `distFn`
of `create_polygon_with_vertex_points`. -/

/-- Stable deduplication `list(dict.fromkeys(points))`: keeps the first
occurrence of each point, in order. -/
def dedupGo (seen : List Pt) : List Pt → List Pt
  | [] => []
  | p :: rest => if p ∈ seen then dedupGo seen rest else p :: dedupGo (p :: seen) rest

def dedupStable (ps : List Pt) : List Pt := dedupGo [] ps

/-- Feature geometries of the input layer, as far as
`create_polygon_with_vertex_points` inspects them. -/
inductive Geom where
  | point (p : Pt)
  | multipoint (ps : List Pt)
  | line (ps : List Pt)
  | multiline (parts : List (List Pt))
  | polygon (rings : List (List Pt))
  | multipolygon (parts : List (List (List Pt)))
  deriving Repr, DecidableEq

/-- The vertex-collection loop of `create_polygon_with_vertex_points`
(lines 361-395): every vertex of every feature, in feature order. -/
def extractPoints (feats : List Geom) : List Pt :=
  feats.flatMap fun g =>
    match g with
    | .point p => [p]
    | .multipoint ps => ps
    | .line ps => ps
    | .multiline parts => parts.flatten
    | .polygon rings => rings.flatten
    | .multipolygon parts => (parts.map List.flatten).flatten

/-- Result attributes of one named vertex feature (`B1`, `B2`, ...). -/
structure VertexFeature where
  name : String
  px : Int
  py : Int
  dist : Rat
  deriving Repr, DecidableEq

/-- The in-memory polygon layer: its single ring and its area attribute. -/
structure PolygonLayer where
  ring : List Pt
  area : Rat
  deriving Repr, DecidableEq

structure PointsLayer where
  feats : List VertexFeature
  deriving Repr, DecidableEq

/-- Python `int(...)` on a float truncates toward zero. -/
def pyInt (q : Rat) : Int :=
  if 0 ≤ q then ⌊q⌋ else ⌈q⌉

/-- `qgis_utils.create_polygon_with_vertex_points` (lines 353-477).
`distFn` stands for the external `round(math.hypot(...), 2)` computation
and `areaFn` for `QgsGeometry.area()`; neither influences the control
flow.  The `filter(None, points)` step removes falsy entries; extracted
vertices are plain points and never falsy, so it keeps the list intact,
but the subsequent emptiness guard is kept faithfully.  Shapefile export
(only when output paths are supplied) is an external side effect outside
the returned value. -/
def create_polygon_with_vertex_points (distFn : Pt → Pt → Rat)
    (areaFn : List Pt → Rat) (feats : List Geom) :
    Except String (PolygonLayer × PointsLayer) :=
  let points := extractPoints feats
  if points.length < 3 then
    Except.error ("Il faut au moins 3 points pour creer un polygone")
  else if points = [] then
    Except.error ("Aucun point valide trouve dans le fichier.")
  else
    let sorted0 := dedupStable points
    let sorted1 := if is_clockwise sorted0 then sorted0 else sorted0.reverse
    let sorted_points := shift_to_northernmost sorted1
    let area_m2 := areaFn sorted_points
    let pointFeats := sorted_points.mapIdx fun i p =>
      { name := (("B")) ++ toString (i + 1)
        px := pyInt p.x
        py := pyInt p.y
        dist := distFn p (sorted_points.getD ((i + 1) % sorted_points.length) default)
        : VertexFeature }
    Except.ok ({ ring := sorted_points, area := area_m2 }, { feats := pointFeats })

/-- The vertex sequence `sorted_points` as computed by
`create_polygon_with_vertex_points` (dedup, orient, shift); spelled out
as a named definition for the statements about it. -/
def orderedVertexRing (pts : List Pt) : List Pt :=
  shift_to_northernmost
    (if is_clockwise (dedupStable pts) then dedupStable pts
     else (dedupStable pts).reverse)

/-- The named vertex features (`B1`, `B2`, ...) built from a vertex
sequence, as in the loop of lines 449-459. -/
def vertexFeatures (distFn : Pt → Pt → Rat) (sorted_points : List Pt) :
    List VertexFeature :=
  sorted_points.mapIdx fun i p =>
    { name := (("B")) ++ toString (i + 1)
      px := pyInt p.x
      py := pyInt p.y
      dist := distFn p (sorted_points.getD ((i + 1) % sorted_points.length) default)
      : VertexFeature }

/-! ## `MapViewSet.parcelle_detail` (views.py, lines 1384-1491)

The request carries a JSON `points` payload.  After JSON parsing the
handler rejects lists of fewer than 3 entries with a 400 response; only
then does it convert entries of shape `[x, y]` or `{x:..., y:...}` and
build a polygon.  (The conversion loop would in fact hit a `NameError` on
`QgsPointXY`, which is not bound at module level in views.py; that is
outside this claim and the embedding keeps the conversion as written.) -/

/-- A parsed JSON entry of the `points` array. -/
inductive JsonPoint where
  | arr (elems : List Rat)
  | obj (xv : Option Rat) (yv : Option Rat)
  | other
  deriving Repr, DecidableEq

/-- The conversion loop (lines 1440-1445): keep `[x, y]` pairs and
`x`/`y` dicts, silently drop anything else. -/
def toQgsPoint : JsonPoint → Option Pt
  | .arr [a, b] => some ⟨a, b⟩
  | .arr _ => none
  | .obj (some a) (some b) => some ⟨a, b⟩
  | .obj _ _ => none
  | .other => none

/-- An HTTP-level outcome: either an error response (status code and
error string) or success data (area and point count). -/
structure ParcelleOk where
  area_m2 : Rat
  points_count : Nat
  deriving Repr, DecidableEq

structure ErrResponse where
  status_code : Nat
  error : String
  deriving Repr, DecidableEq

/-- `parcelle_detail` after JSON decoding succeeded, with the external
`QgsGeometry.fromPolygonXY(...).area()` computation passed as `areaFn`. -/
def parcelle_detail (areaFn : List Pt → Rat) (points : List JsonPoint) :
    Except ErrResponse ParcelleOk :=
  if points.length < 3 then
    Except.error { status_code := 400, error := ("Not enough points") }
  else
    let qgis_points := points.filterMap toQgsPoint
    Except.ok { area_m2 := areaFn qgis_points, points_count := qgis_points.length }

/-! ## `MapViewSet.render_map` (views.py, lines 1271-1382)

The validated request fields that the handler actually uses are the output
size, dpi, image format and the optional extent string; the remaining
validated fields (grid and label options, background colour, point list)
are extracted and never referenced again.  The QGIS render job is the
external function `renderJob : MapSettings → QImg`; the Python `float`
builtin is the external component `parseF : String → Option Rat`
(`None` models a raised `ValueError`). -/

structure QgsRectangleV where
  xmin : Rat
  ymin : Rat
  xmax : Rat
  ymax : Rat
  deriving Repr, DecidableEq

structure RenderRequest where
  width : Int
  height : Int
  dpi : Int
  format_image : String
  extent : Option String
  deriving Repr, DecidableEq

/-- Lines 1337-1345: `if extent:` guard, `extent.split(',')`, the `float`
comprehension whose first failure raises `ValueError` (caught by
`except ValueError: pass`), and the `len(coords) == 4` guard around
`QgsRectangle(coords[0], coords[1], coords[2], coords[3])`. -/
def resolveExtent (parseF : String → Option Rat) (extent : Option String) :
    Option QgsRectangleV :=
  match extent with
  | none => none
  | some s =>
      if s = "" then none
      else
        match (pySplitComma s).mapM parseF with
        | none => none
        | some coords =>
            match coords with
            | [a, b, c, d] => some { xmin := a, ymin := b, xmax := c, ymax := d }
            | _ => none

structure MapSettingsV where
  out_width : Int
  out_height : Int
  out_dpi : Int
  extent : Option QgsRectangleV
  deriving Repr, DecidableEq

/-- The `QgsMapSettings` population of lines 1329-1345 (the destination
CRS is copied from the project when valid and plays no role here). -/
def buildMapSettings (parseF : String → Option Rat) (req : RenderRequest) :
    MapSettingsV :=
  { out_width := req.width
    out_height := req.height
    out_dpi := req.dpi
    extent := resolveExtent parseF req.extent }

/-- The rendered `QImage`.  Only the presence of an alpha channel matters
to the statements below; pixel data stays abstract as an opaque tag. -/
structure QImg where
  tag : Nat
  hasAlpha : Bool
  deriving Repr, DecidableEq

/-- Outcome of the encode-and-respond step: which image object was handed
to which Qt encoder, and the HTTP content type of the response. -/
structure RenderResponse where
  passedImage : QImg
  codec : String
  quality : Option Nat
  contentType : String
  deriving Repr, DecidableEq

/-- Lines 1358-1366: `image.save(buffer, "JPEG", quality=90)` for `jpg`,
`image.save(buffer, "PNG")` otherwise.  The image is handed to the Qt
encoder exactly as rendered; no conversion happens in between. -/
def encodeRendered (image : QImg) (format_image : String) : RenderResponse :=
  if pyLower format_image = ("jpg") then
    { passedImage := image, codec := ("JPEG"), quality := some 90
      contentType := ("image/jpeg") }
  else
    { passedImage := image, codec := ("PNG"), quality := none
      contentType := ("image/png") }

/-- The successful path of `render_map` after session resolution: build
settings, run the render job, encode. -/
def render_map (parseF : String → Option Rat) (renderJob : MapSettingsV → QImg)
    (req : RenderRequest) : RenderResponse :=
  encodeRendered (renderJob (buildMapSettings parseF req)) req.format_image

/-- What spec §4.6 mandates before JPEG encoding: compositing onto an
opaque white canvas, after which the image has no alpha channel.  Stated
from the spec for comparison with `encodeRendered`. -/
def flattenOntoWhite (image : QImg) : QImg :=
  { image with hasAlpha := false }

/-! ## Grid overlay engine (spec §4.4)

Modelled from the spec: no code in this repository computes grid line
positions.  The render endpoint validates and extracts the grid options
(`serializers.py` lines 43-49, `views.py` lines 1283-1289) and never uses
them, and layout maps delegate gridding to the external
`QgsLayoutItemMapGrid`.  The definitions below follow §4.4 of the spec
word for word: first line at `floor(min / spacing) * spacing`, stepping
by `spacing` while `≤ max`, discarding positions below `min`; label
positions `corners`/`edges` keep the first and last line,
`all` keeps every line. -/

/-- Floor-aligned generation loop: starting value `start + i * s`
for `i = 0, 1, ...` while the value stays `≤ mx`.  `fuel` bounds the
recursion; `gridPositions` supplies enough of it. -/
def gridStep (s mx : Rat) : Nat → Rat → List Rat
  | 0, _ => []
  | fuel + 1, v => if v ≤ mx then v :: gridStep s mx fuel (v + s) else []

/-- Grid line positions over `[mn, mx]` at spacing `s` (spec §4.4): the
floor-aligned start may lie below `mn` and is then discarded. -/
def gridPositions (mn mx s : Rat) : List Rat :=
  let start : Rat := (⌊mn / s⌋ : Int) * s
  let fuel : Nat := (⌊mx / s⌋ - ⌊mn / s⌋ + 1).toNat
  (gridStep s mx fuel start).filter (fun v => mn ≤ v)

/-- Label-position policy of §4.4, applied to a list of line positions:
`corners` and `edges` label the first and last line, `all` labels every
line, anything else labels none. -/
def gridLabelPositions (label_position : String) (lines : List Rat) : List Rat :=
  if label_position = ("all") then lines
  else if label_position = ("corners") ∨ label_position = ("edges") then
    match lines with
    | [] => []
    | [l] => [l]
    | l :: rest => [l, (l :: rest).getLast (by simp)]
  else []

/-! ## Layout composer (`create_administrative_document_layout`, views.py lines 232-698)

The function first pulls nineteen toolkit classes out of
`get_qgis_manager().get_classes()` — the manager defined in *views.py*
itself (lines 26-132), whose `classes` dict is the one reproduced in
`viewsManagerClasses` below — and then builds the page and the layout
elements category by category, each element inside its own
`try`/`except`.  Element configurations are Python dicts; required keys
are modelled as `Option` fields read through `reqKey`, optional keys as
`Option` fields read through `getD`.  External toolkit calls
(`attemptMove`, `setLayers`, ...) record their arguments in the produced
`PlacedItem`. -/

inductive ItemKind where
  | mapItem
  | legendItem
  | scaleBarItem
  | labelItem
  | tableItem
  | pictureItem
  deriving Repr, DecidableEq

structure FontSpec where
  family : String
  size : Rat
  bold : Bool
  italic : Bool
  deriving Repr, DecidableEq

/-- A layout item as far as the composer configures it. -/
structure PlacedItem where
  kind : ItemKind
  x : Rat
  y : Rat
  w : Option Rat := none
  h : Option Rat := none
  layers : Option (List String) := none
  extent : Option QgsRectangleV := none
  mapScale : Option Rat := none
  gridEnabled : Bool := false
  gridInterval : Option Rat := none
  gridColor : Option String := none
  gridAnnotations : Bool := false
  linked : Option String := none
  title : Option String := none
  text : Option String := none
  font : Option FontSpec := none
  halign : Option String := none
  path : Option String := none
  barStyle : Option String := none
  layerId : Option String := none
  columns : Option (List String) := none
  featureLimit : Option Rat := none
  deriving Repr, DecidableEq

inductive LogLevel where
  | debug
  | warn
  | error
  deriving Repr, DecidableEq

structure LogEntry where
  level : LogLevel
  msg : String
  deriving Repr, DecidableEq

structure LayoutState where
  pageSize : String
  orientation : String
  items : List PlacedItem
  table : List (String × PlacedItem)
  logs : List LogEntry
  deriving Repr, DecidableEq

/-- Outcome of one element's `try` block. -/
inductive BuildOutcome where
  | made (item : PlacedItem) (registerId : String) (dbg : String)
  | skipped (warnMsg : String)
  | failed (errMsg : String)
  deriving Repr, DecidableEq

/-- Fold one element outcome into the layout state: a built item is added
to the layout and registered in `layout_items`, a skip logs a warning, an
exception logs an error (`except Exception as e: logger.error(...)`). -/
def applyOutcome (st : LayoutState) (out : BuildOutcome) : LayoutState :=
  match out with
  | .made item rid dbg =>
      { st with items := st.items ++ [item]
                table := dictInsert st.table rid item
                logs := st.logs ++ [{ level := .debug, msg := dbg }] }
  | .skipped m => { st with logs := st.logs ++ [{ level := .warn, msg := m }] }
  | .failed m => { st with logs := st.logs ++ [{ level := .error, msg := m }] }

/-- Collapse the `Except` of a builder into a `BuildOutcome`. -/
def outcomeOf : Except String BuildOutcome → BuildOutcome
  | .ok o => o
  | .error e => .failed e

/-! ### Element configurations -/

structure ExtentConf where
  xmin : Option Rat := none
  ymin : Option Rat := none
  xmax : Option Rat := none
  ymax : Option Rat := none
  deriving Repr, DecidableEq

structure GridConf where
  enabled : Option Bool := none
  interval : Option Rat := none
  color : Option String := none
  labels : Option Bool := none
  label_position : Option String := none
  deriving Repr, DecidableEq

structure ArrowConf where
  enabled : Option Bool := none
  ax : Option Rat := none
  ay : Option Rat := none
  size : Option Rat := none
  path : Option String := none
  deriving Repr, DecidableEq

structure MapConf where
  id : Option String := none
  x : Option Rat := none
  y : Option Rat := none
  width : Option Rat := none
  height : Option Rat := none
  layers : Option (List String) := none
  extent : Option ExtentConf := none
  scale : Option Rat := none
  grid : Option GridConf := none
  north_arrow : Option ArrowConf := none
  deriving Repr, DecidableEq

structure LegendConf where
  id : Option String := none
  x : Option Rat := none
  y : Option Rat := none
  width : Option Rat := none
  height : Option Rat := none
  title : Option String := none
  map_id : Option String := none
  layers : Option (List String) := none
  deriving Repr, DecidableEq

structure ScaleConf where
  id : Option String := none
  x : Option Rat := none
  y : Option Rat := none
  width : Option Rat := none
  height : Option Rat := none
  map_id : Option String := none
  style : Option String := none
  deriving Repr, DecidableEq

structure FontConf where
  family : Option String := none
  size : Option Rat := none
  bold : Option Bool := none
  italic : Option Bool := none
  deriving Repr, DecidableEq

structure LabelConf where
  id : Option String := none
  x : Option Rat := none
  y : Option Rat := none
  width : Option Rat := none
  height : Option Rat := none
  text : Option String := none
  font : Option FontConf := none
  alignment : Option String := none
  deriving Repr, DecidableEq

structure TableConf where
  id : Option String := none
  x : Option Rat := none
  y : Option Rat := none
  width : Option Rat := none
  height : Option Rat := none
  layer_id : Option String := none
  columns : Option (List String) := none
  max_features : Option Rat := none
  deriving Repr, DecidableEq

structure ImageConf where
  id : Option String := none
  x : Option Rat := none
  y : Option Rat := none
  width : Option Rat := none
  height : Option Rat := none
  path : Option String := none
  deriving Repr, DecidableEq

structure DocumentConf where
  page_size : Option String := none
  orientation : Option String := none
  deriving Repr, DecidableEq

structure ConfigData where
  document : Option DocumentConf := none
  maps : Option (List MapConf) := none
  legends : Option (List LegendConf) := none
  scales : Option (List ScaleConf) := none
  labels : Option (List LabelConf) := none
  tables : Option (List TableConf) := none
  images : Option (List ImageConf) := none
  deriving Repr, DecidableEq

/-! ### Per-category builders (one `try` body each) -/

/-- Lines 386-452: one map element.  `project` is the set of layer ids
registered in the QGIS project (`project.mapLayer`). -/
def buildMapItem (project : List String) (conf : MapConf) :
    Except String (PlacedItem × String × String) := do
  let mid ← reqKey ("id") conf.id
  let x ← reqKey ("x") conf.x
  let y ← reqKey ("y") conf.y
  let w ← reqKey ("width") conf.width
  let h ← reqKey ("height") conf.height
  -- `if layer_ids_to_show:` — None and the empty list are both falsy
  let layers : Option (List String) :=
    match conf.layers with
    | some ls => if ls = [] then none else some (ls.filter (project.contains ·))
    | none => none
  -- `extent_config["xmin"]` etc. raise `KeyError` when absent
  let ext : Option QgsRectangleV ←
    match conf.extent with
    | some ec => do
        let xmin ← reqKey ("xmin") ec.xmin
        let ymin ← reqKey ("ymin") ec.ymin
        let xmax ← reqKey ("xmax") ec.xmax
        let ymax ← reqKey ("ymax") ec.ymax
        pure (some { xmin := xmin, ymin := ymin, xmax := xmax, ymax := ymax })
    | none => pure none
  -- `if scale:` — a zero scale is falsy and not applied
  let sc : Option Rat :=
    match conf.scale with
    | some s => if s = 0 then none else some s
    | none => none
  let gc := conf.grid.getD {}
  let gridOn := gc.enabled.getD false
  -- the `QColor(...).isValid()` check is external; the configured colour
  -- string is recorded as given
  let item : PlacedItem :=
    { kind := .mapItem, x := x, y := y, w := some w, h := some h
      layers := layers, extent := ext, mapScale := sc
      gridEnabled := gridOn
      gridInterval := if gridOn then some (gc.interval.getD 100) else none
      gridColor := if gridOn then some (gc.color.getD ("#888888")) else none
      gridAnnotations := gridOn && gc.labels.getD false }
  return (item, mid, (("Carte ")) ++ mid ++ (" ajoutee au layout."))

/-- Lines 456-489: one legend element.  The width/height keys are read
(and can raise) but no `attemptResize` is issued. -/
def buildLegendItem (project : List String) (table : List (String × PlacedItem))
    (conf : LegendConf) : Except String (PlacedItem × String × String) := do
  let lid ← reqKey ("id") conf.id
  let x ← reqKey ("x") conf.x
  let y ← reqKey ("y") conf.y
  let _w ← reqKey ("width") conf.width
  let _h ← reqKey ("height") conf.height
  let title := conf.title.getD ("Legende")
  -- `if linked_map_id and linked_map_id in layout_items:`
  let linked : Option String :=
    match conf.map_id with
    | some l => if l ≠ "" ∧ (dictLookup table l).isSome then some l else none
    | none => none
  -- `if layer_ids_for_legend:` — custom layer-tree group of the valid layers
  let legendLayers : Option (List String) :=
    match conf.layers with
    | some ls => if ls = [] then none else some (ls.filter (project.contains ·))
    | none => none
  let item : PlacedItem :=
    { kind := .legendItem, x := x, y := y, title := some title
      linked := linked, layers := legendLayers }
  return (item, lid, (("Legende ")) ++ lid ++ (" ajoutee au layout."))

/-- Lines 496-526: one scale-bar element.  An unresolved `map_id` is
skipped with a warning (`continue`), anything matching a registered item
id is accepted: the membership test is against the whole `layout_items`
dict, which already holds maps, legends, and earlier scale bars.
`setLinkedMap` itself records the id of the resolved item. -/
def buildScaleItem (table : List (String × PlacedItem)) (conf : ScaleConf) :
    Except String BuildOutcome := do
  let sid ← reqKey ("id") conf.id
  let x ← reqKey ("x") conf.x
  let y ← reqKey ("y") conf.y
  let _w ← reqKey ("width") conf.width
  let _h ← reqKey ("height") conf.height
  let linked_map_id := conf.map_id
  let style := conf.style.getD ("Numeric")
  if ¬ (pyTruthy linked_map_id ∧ (dictLookup table (linked_map_id.getD (""))).isSome) then
    return .skipped ((("Echelle ")) ++ sid ++ (" ignoree: carte liee introuvable."))
  let applied : Option String :=
    if pyLower style = ("numeric") then some ("Numeric")
    else if pyLower style = ("double") then some ("Double Box")
    else if pyLower style = ("line ticks up") then some ("Line Ticks Up")
    else none
  let item : PlacedItem :=
    { kind := .scaleBarItem, x := x, y := y
      linked := linked_map_id, barStyle := applied }
  return .made item sid ((("Echelle ")) ++ sid ++ (" ajoutee au layout."))

/-- Lines 533-575: one label element, with `[DATE]`/`[SESSION_ID]`
placeholder substitution.  The Python guards each `replace` by an `in`
test; replacing an absent pattern is the identity, so the guarded and
unguarded forms agree. -/
def buildLabelItem (session_id today : String) (conf : LabelConf) :
    Except String (PlacedItem × String × String) := do
  let lid ← reqKey ("id") conf.id
  let x ← reqKey ("x") conf.x
  let y ← reqKey ("y") conf.y
  let w ← reqKey ("width") conf.width
  let h ← reqKey ("height") conf.height
  let text0 := conf.text.getD ("")
  let text1 := text0.replace ("[DATE]") today
  let text2 := text1.replace ("[SESSION_ID]") session_id
  let fc := conf.font.getD {}
  let font : FontSpec :=
    { family := fc.family.getD ("Arial"), size := fc.size.getD 10
      bold := fc.bold.getD false, italic := fc.italic.getD false }
  let alignment := conf.alignment.getD ("Left")
  let halign :=
    if pyLower alignment = ("center") then ("AlignHCenter")
    else if pyLower alignment = ("right") then ("AlignRight")
    else ("AlignLeft")
  let item : PlacedItem :=
    { kind := .labelItem, x := x, y := y, w := some w, h := some h
      text := some text2, font := some font, halign := some halign }
  return (item, lid, (("Etiquette ")) ++ lid ++ (" ajoutee au layout."))

/-- Lines 582-616: one attribute-table element.  A falsy or unknown
`layer_id` is skipped with a warning. -/
def buildTableItem (project : List String) (conf : TableConf) :
    Except String BuildOutcome := do
  let tid ← reqKey ("id") conf.id
  let x ← reqKey ("x") conf.x
  let y ← reqKey ("y") conf.y
  let w ← reqKey ("width") conf.width
  let h ← reqKey ("height") conf.height
  let layer_id := conf.layer_id
  let columns := conf.columns.getD []
  let max_features := conf.max_features.getD 100
  -- `layer = project.mapLayer(layer_id) if layer_id else None`
  -- `if not layer or not layer.isValid(): ... continue`
  if ¬ (pyTruthy layer_id ∧ project.contains (layer_id.getD (""))) then
    return .skipped ((("Table ")) ++ tid ++ (" ignoree: couche invalide."))
  let item : PlacedItem :=
    { kind := .tableItem, x := x, y := y, w := some w, h := some h
      layerId := layer_id
      columns := if columns = [] then none else some columns
      featureLimit := some max_features }
  return .made item tid ((("Table ")) ++ tid ++ (" ajoutee au layout."))

/-- Lines 623-641: one picture element; a falsy or non-existing path is
skipped with a warning.  `fsPaths` is the set of paths for which
`os.path.exists` holds. -/
def buildImageItem (fsPaths : List String) (conf : ImageConf) :
    Except String BuildOutcome := do
  let iid ← reqKey ("id") conf.id
  let x ← reqKey ("x") conf.x
  let y ← reqKey ("y") conf.y
  let w ← reqKey ("width") conf.width
  let h ← reqKey ("height") conf.height
  let image_path := conf.path
  if ¬ (pyTruthy image_path ∧ fsPaths.contains (image_path.getD (""))) then
    return .skipped ((("Image ")) ++ iid ++ (" ignoree: chemin invalide."))
  let item : PlacedItem :=
    { kind := .pictureItem, x := x, y := y, w := some w, h := some h
      path := image_path }
  return .made item iid ((("Image ")) ++ iid ++ (" ajoutee au layout."))

/-- The default north-arrow asset path (lines 661-664):
`$QGIS_PREFIX_PATH/share/qgis/svg/arrows/NorthArrow_02.svg`. -/
def defaultArrowPath (qgisPrefix : String) : String :=
  qgisPrefix ++ ("/share/qgis/svg/arrows/NorthArrow_02.svg")

/-- Lines 648-684: the north-arrow pass re-iterates over *all* map
configurations.  Python evaluates `dict.get(key, default)` arguments
eagerly, so the default expressions `map_conf["x"] + map_conf["width"] - 20`
and `map_conf["y"] + 5` are computed (and can raise `KeyError`) even when
the arrow config supplies explicit coordinates.  The final debug log reads
`map_conf['id']` only after the item was already added to the layout, so a
map config lacking `id` still gets its arrow placed before the `KeyError`
is caught and logged. -/
def placeArrowForMap (fsPaths : List String) (qgisPrefix : String)
    (conf : MapConf) (st : LayoutState) : LayoutState :=
  let na := conf.north_arrow.getD {}
  if na.enabled.getD false then
    match conf.x, conf.width, conf.y with
    | some mx, some mw, some my =>
        let x := na.ax.getD (mx + mw - 20)
        let y := na.ay.getD (my + 5)
        let size := na.size.getD 15
        let arrow_path := na.path.getD (defaultArrowPath qgisPrefix)
        if ¬ fsPaths.contains arrow_path then
          { st with logs := st.logs ++
              [{ level := .warn
                 msg := (("Chemin de fleche du nord non trouve: ")) ++ arrow_path ++ (". Ignoree.") }] }
        else
          let item : PlacedItem :=
            { kind := .pictureItem, x := x, y := y, w := some size, h := some size
              path := some arrow_path }
          let st := { st with items := st.items ++ [item] }
          match conf.id with
          | some mid =>
              { st with logs := st.logs ++
                  [{ level := .debug
                     msg := (("Fleche du nord ajoutee pour la carte ")) ++ mid ++ (".") }] }
          | none =>
              { st with logs := st.logs ++
                  [{ level := .error, msg := ("KeyError: id") }] }
    | _, _, _ =>
        -- one of the required map keys is missing: the eager default
        -- computation raises before anything is placed
        { st with logs := st.logs ++ [{ level := .error, msg := ("KeyError") }] }
  else st

/-! ### The composition body (lines 353-693, after class extraction) -/

/-- Page setup and all seven element passes, in source order. -/
def composeBody (project fsPaths : List String) (session_id today qgisPrefix : String)
    (cfg : ConfigData) : LayoutState :=
  let dc := cfg.document.getD {}
  let page_size := dc.page_size.getD ("A4")
  let orientation_str := dc.orientation.getD ("Portrait")
  let orientation :=
    if pyLower orientation_str = ("portrait") then ("Portrait") else ("Landscape")
  let st : LayoutState :=
    { pageSize := page_size, orientation := orientation
      items := [], table := [], logs := [] }
  let maps_config := cfg.maps.getD []
  let st := maps_config.foldl (fun st mc =>
    applyOutcome st (outcomeOf (do
      let (item, rid, dbg) ← buildMapItem project mc
      return .made item rid dbg))) st
  let st := (cfg.legends.getD []).foldl (fun st lc =>
    applyOutcome st (outcomeOf (do
      let (item, rid, dbg) ← buildLegendItem project st.table lc
      return .made item rid dbg))) st
  let st := (cfg.scales.getD []).foldl (fun st sc =>
    applyOutcome st (outcomeOf (buildScaleItem st.table sc))) st
  let st := (cfg.labels.getD []).foldl (fun st lc =>
    applyOutcome st (outcomeOf (do
      let (item, rid, dbg) ← buildLabelItem session_id today lc
      return .made item rid dbg))) st
  let st := (cfg.tables.getD []).foldl (fun st tc =>
    applyOutcome st (outcomeOf (buildTableItem project tc))) st
  let st := (cfg.images.getD []).foldl (fun st ic =>
    applyOutcome st (outcomeOf (buildImageItem fsPaths ic))) st
  let st := maps_config.foldl (fun st mc => placeArrowForMap fsPaths qgisPrefix mc st) st
  st

/-! ### Class extraction and the outer `try` (lines 330-351 and 695-698) -/

/-- The keys of `self.classes` of the `QGISManager` defined in
*views.py* (lines 66-105).  This is the manager `get_qgis_manager()`
returns inside views.py; it is distinct from the richer manager of
`qgis_utils.py`. -/
def viewsManagerClasses : List String :=
  [("QgsApplication"), ("QgsProject"), ("QgsVectorLayer"), ("QgsRasterLayer"),
   ("QgsMapSettings"), ("QgsMapRendererParallelJob"), ("QgsRectangle"),
   ("QgsProcessingFeedback"), ("QgsProcessingContext"), ("QgsPalLayerSettings"),
   ("QgsTextFormat"), ("QgsVectorLayerSimpleLabeling"), ("QgsPrintLayout"),
   ("QgsLayoutItemMap"), ("QgsLayoutItemLegend"), ("QgsLayerTreeModel"),
   ("QgsLayerTreeLayer"), ("QgsLayerTreeGroup"), ("QgsSingleSymbolRenderer"),
   ("QgsFillSymbol"), ("QgsLineSymbol"), ("QgsMarkerSymbol"), ("QgsGeometry"),
   ("QgsFeature"), ("QgsField"), ("QgsVectorFileWriter"), ("QgsWkbTypes"),
   ("QVariant"), ("QSize"), ("QBuffer"), ("QByteArray"), ("QIODevice"),
   ("QImage"), ("QPainter"), ("QPen"), ("QBrush"), ("QFont"), ("QColor")]

/-- `classes['Name']`: raises `KeyError` when the manager never stored
the class under that name. -/
def lookupClass (name : String) : Except String Unit :=
  if viewsManagerClasses.contains name then Except.ok ()
  else Except.error ((("KeyError: ")) ++ name)

/-- The class names `create_administrative_document_layout` extracts, in
source order (lines 333-351). -/
def layoutRequiredClasses : List String :=
  [("QgsPrintLayout"), ("QgsLayoutItemMap"), ("QgsLayoutItemLegend"),
   ("QgsLayoutItemLabel"), ("QgsLayoutItemScaleBar"), ("QgsLayoutItemPicture"),
   ("QgsLayoutItemPage"), ("QgsLayoutTable"), ("QgsLayoutItemAttributeTable"),
   ("QgsUnitTypes"), ("QgsLayoutPoint"), ("QgsLayoutSize"), ("QgsRectangle"),
   ("QgsLayerTreeModel"), ("QgsLayerTreeLayer"), ("QgsLayerTreeGroup"),
   ("QFont"), ("QColor"), ("QgsLayoutFrame")]

/-- `views.create_administrative_document_layout`: the outer `try` turns
any escaped exception into a logged error and a `None` result.  The
template branch (lines 356-363) constructs a `QDomDocument`, a name that
views.py never imports, so entering it raises `NameError`. -/
def create_administrative_document_layout (project fsPaths : List String)
    (session_id today qgisPrefix : String) (template_path : Option String)
    (cfg : ConfigData) : Option LayoutState :=
  match (do
    (layoutRequiredClasses.forM fun n => lookupClass n :
      Except String Unit)
    match template_path with
    | some tp =>
        if tp ≠ "" ∧ fsPaths.contains tp then
          Except.error ("NameError: name QDomDocument is not defined")
        else
          Except.ok (composeBody project fsPaths session_id today qgisPrefix cfg)
    | none =>
        Except.ok (composeBody project fsPaths session_id today qgisPrefix cfg)) with
  | .ok st => some st
  | .error _ => none

/-! ## File upload (`FileViewSet.upload_file`, views.py lines 1601-1704)

The media directory is modelled as an association list from absolute path
to file content; `os.path.exists` is membership among the stored paths.
The upload handler computes a destination path, bumps a `_1`, `_2`, ...
suffix while the path exists, then writes the uploaded content there. -/

/-- `os.path.splitext`: split at the rightmost dot, the extension keeping
the dot; no dot gives an empty extension.  (Python additionally refuses
to split a leading dot of the basename; no statement below depends on
that corner.) -/
def splitext (filename : String) : String × String :=
  let cs := filename.data
  match ((List.range cs.length).filter (fun i => cs.getD i ' ' = '.')).getLast? with
  | some i => (⟨cs.take i⟩, ⟨cs.drop i⟩)
  | none => (filename, ("" : String))

/-- Decimal digits of `n`, least significant first; the explicit fuel
(always sufficient at `fuel = n`, see `natDigitsRev_eq_digits`) keeps the
recursion structural. -/
def natDigitsRev : Nat → Nat → List Nat
  | 0, _ => []
  | fuel + 1, n => if n = 0 then [] else (n % 10) :: natDigitsRev fuel (n / 10)

/-- Decimal digit characters of a natural number, most significant first;
mirrors Python's `f"{counter}"` rendering. -/
def natStr (n : Nat) : String :=
  if n = 0 then ("0")
  else ⟨(natDigitsRev n n).reverse.map (fun d => Char.ofNat (48 + d))⟩

/-- `f"{base_name}_{counter}{ext}"`. -/
def numberedName (base ext : String) (k : Nat) : String :=
  base ++ ("_") ++ natStr k ++ ext

/-- `os.path.join(upload_dir, filename)` on POSIX with a relative second
component. -/
def pyJoin (dir name : String) : String :=
  dir ++ ("/") ++ name

/-- The `while os.path.exists(full_file_path):` loop (lines 1645-1649),
with a fuel bound on the iterations; `resolveUploadPath` supplies fuel
`|fs| + 2`, which theorem `upload_file_never_overwrites` shows is enough
for the loop to exit on a non-existing candidate. -/
def findFreePath (fs : List String) (dir base ext : String) :
    Nat → Nat → String → String
  | 0, _, cur => cur
  | fuel + 1, k, cur =>
      if fs.contains cur then
        findFreePath fs dir base ext fuel (k + 1) (pyJoin dir (numberedName base ext k))
      else cur

/-- Destination resolution of `upload_file` steps 2-3: start from
`dir/filename` and bump the counter while the path exists. -/
def resolveUploadPath (fs : List String) (dir filename : String) : String :=
  let be := splitext filename
  findFreePath fs dir be.1 be.2 (fs.length + 2) 1 (pyJoin dir filename)

/-- Step 4 of `upload_file`: write the uploaded content at the resolved
path (`open(full_file_path, 'wb+')` creates the file).  Returns the path
written and the directory contents afterwards. -/
def upload_file (fsFiles : List (String × String)) (dir filename content : String) :
    String × List (String × String) :=
  let p := resolveUploadPath (fsFiles.map Prod.fst) dir filename
  (p, dictInsert fsFiles p content)

/-! ## Concrete inputs used by individual claim checks -/

/-- Three distinct collinear points, supplied as point features. -/
def collinearFeats : List Geom :=
  [.point ⟨0, 0⟩, .point ⟨1, 0⟩, .point ⟨2, 0⟩]

/-- A proper (non-degenerate) triangle, supplied as point features. -/
def triangleFeats : List Geom :=
  [.point ⟨0, 0⟩, .point ⟨2, 0⟩, .point ⟨1, 1⟩]

/-- A layout request with one map and one scale bar whose `map_id`
matches no element: the configuration of spec §8's scale-bar scenario. -/
def scaleMissingLinkConfig : ConfigData :=
  { maps := some [{ id := some ("m1"), x := some 10, y := some 10
                    width := some 150, height := some 100 }]
    scales := some [{ id := some ("s1"), x := some 10, y := some 115
                      width := some 50, height := some 10
                      map_id := some ("missing") }] }

/-- A layout request with a single map that asks for a north arrow with
all defaults. -/
def northArrowConfig : ConfigData :=
  { maps := some [{ id := some ("m1"), x := some 10, y := some 10
                    width := some 150, height := some 100
                    north_arrow := some { enabled := some true } }] }

/-- A rendered image carrying an alpha channel. -/
def alphaImg : QImg :=
  { tag := 7, hasAlpha := true }

/-- A `float` component stand-in that fails on every string (models
`float` raising `ValueError` on non-numeric text). -/
def noneParse : String → Option Rat := fun _ => none

/-- A render job returning a fixed opaque image. -/
def constJob : MapSettingsV → QImg := fun _ => { tag := 0, hasAlpha := false }

/-- A render request whose extent string has four comma-separated
non-numeric components. -/
def cexRenderReq : RenderRequest :=
  { width := 800, height := 600, dpi := 96, format_image := ("png")
    extent := some ("a,b,c,d") }

/-- A render request asking for JPEG output. -/
def jpgRenderReq : RenderRequest :=
  { width := 800, height := 600, dpi := 96, format_image := ("jpg")
    extent := none }

/-! # Theorems -/

/-! ## Dictionary lemmas -/

lemma dictLookup_dictInsert_self (t : List (String × α)) (k : String) (v : α) :
    dictLookup (dictInsert t k v) k = some v := by
  induction t with
  | nil => simp [dictInsert, dictLookup, List.lookup]
  | cons hd tl ih =>
      obtain ⟨k', v'⟩ := hd
      by_cases h : k' = k
      · subst h
        simp [dictInsert, dictLookup, List.lookup]
      · simp only [dictInsert, if_neg h, dictLookup, List.lookup]
        have hne : (k == k') = false := by
          simp [Ne.symm h]
        rw [hne]
        exact ih

lemma dictInsert_keys (t : List (String × α)) (k : String) (v : α) :
    (dictInsert t k v).map Prod.fst ⊆ k :: t.map Prod.fst := by
  induction t with
  | nil => simp [dictInsert]
  | cons hd tl ih =>
      obtain ⟨k', v'⟩ := hd
      by_cases h : k' = k
      · subst h
        simp [dictInsert]
      · intro a ha
        simp only [dictInsert, if_neg h, List.map_cons, List.mem_cons] at ha
        rcases ha with rfl | ha
        · exact List.mem_cons_of_mem _ (List.mem_cons_self _ _)
        · rcases List.mem_cons.mp (ih ha) with rfl | h1
          · exact List.mem_cons_self _ _
          · exact List.mem_cons_of_mem _ (List.mem_cons_of_mem _ h1)

lemma dictInsert_of_not_mem (t : List (String × α)) (k : String) (v : α)
    (h : k ∉ t.map Prod.fst) : dictInsert t k v = t ++ [(k, v)] := by
  induction t with
  | nil => simp [dictInsert]
  | cons hd tl ih =>
      obtain ⟨k', v'⟩ := hd
      simp only [List.map_cons, List.mem_cons] at h
      push_neg at h
      simp only [dictInsert, List.cons_append]
      rw [if_neg (Ne.symm h.1), ih h.2]

/-! ## C1, C5, C7: the layout composer never returns a layout -/

/-- C1: the claim states that every element-placement step of
`create_administrative_document_layout` is independently fault-isolated
and that the composed layout is always returned.  In fact no layout is
ever returned: the class extraction at the top of the function reads
`classes["QgsLayoutItemLabel"]` (and eight further keys) from the
views.py `QGISManager.classes` dict, which does not contain them, so the
outer `try` catches a `KeyError` before any element pass runs and the
function returns `None` for every request. -/
theorem layout_composition_always_returns_none :
    ∀ (project fsPaths : List String) (session_id today qgisPrefix : String)
      (template_path : Option String) (cfg : ConfigData),
      create_administrative_document_layout project fsPaths session_id today
        qgisPrefix template_path cfg = none := by
  intro project fsPaths session_id today qgisPrefix template_path cfg
  rfl

/-- C5: the claim states that a scale bar with an unresolvable
`linked_map_id` is skipped with a warning and every other element is
still placed.  Evaluating the embedded handler on such a request — one
map `m1` plus one scale bar linked to `missing` — shows that the function
returns `None` (so in particular the map element is not placed either);
the element passes of lines 495-529, which would skip the scale bar with
a warning and keep the map, are unreachable, as the evaluation of
`composeBody` (the lines 353-693 body on its own) shows. -/
theorem scalebar_missing_link_request_returns_none :
    create_administrative_document_layout [("l1")] [] ("sess-1") ("12/10/2026")
      ("/usr") none scaleMissingLinkConfig = none
    ∧ (composeBody [("l1")] [] ("sess-1") ("12/10/2026") ("/usr")
        scaleMissingLinkConfig).items =
        [{ kind := .mapItem, x := 10, y := 10, w := some 150, h := some 100 }]
    ∧ (composeBody [("l1")] [] ("sess-1") ("12/10/2026") ("/usr")
        scaleMissingLinkConfig).logs =
        [{ level := .debug, msg := ("Carte m1 ajoutee au layout.") },
         { level := .warn, msg := ("Echelle s1 ignoree: carte liee introuvable.") }] := by
  refine ⟨rfl, rfl, rfl⟩

/-- C7: the claim states that each map element requesting a north arrow
gets a picture decoration at the top-right of the map rectangle with
default size 15mm, skipped when the asset file is missing.  Evaluating
the embedded handler on such a request shows it returns `None` (class
extraction fails first), whether or not the asset exists; the north-arrow
pass of lines 648-684, which would behave as claimed, is unreachable, as
the two `composeBody` evaluations (asset present / asset missing) show. -/
theorem north_arrow_request_returns_none :
    create_administrative_document_layout [] [defaultArrowPath ("/usr")] ("s")
      ("d") ("/usr") none northArrowConfig = none
    ∧ (composeBody [] [defaultArrowPath ("/usr")] ("s") ("d") ("/usr")
        northArrowConfig).items =
        [{ kind := .mapItem, x := 10, y := 10, w := some 150, h := some 100 },
         { kind := .pictureItem, x := 10 + 150 - 20, y := 10 + 5
           w := some 15, h := some 15
           path := some (defaultArrowPath ("/usr")) }]
    ∧ (composeBody [] [] ("s") ("d") ("/usr") northArrowConfig).items =
        [{ kind := .mapItem, x := 10, y := 10, w := some 150, h := some 100 }]
    ∧ (composeBody [] [] ("s") ("d") ("/usr") northArrowConfig).logs =
        [{ level := .debug, msg := ("Carte m1 ajoutee au layout.") },
         { level := .warn
           msg := (("Chemin de fleche du nord non trouve: ")) ++
             defaultArrowPath ("/usr") ++ (". Ignoree.") }] := by
  refine ⟨rfl, rfl, rfl, rfl⟩

/-! ## C3: JPEG encoding of images with alpha -/

/-- C3 counterexample: the claim states that the renderer first flattens
an alpha-carrying image onto an opaque white canvas before JPEG encoding.
For a concrete image with an alpha channel, the image handed to the Qt
JPEG encoder is the rendered image itself — still carrying alpha — and
differs from the white-flattened image the claim mandates. -/
theorem jpeg_alpha_not_flattened_cex :
    (encodeRendered alphaImg ("jpg")).passedImage = alphaImg
    ∧ alphaImg.hasAlpha = true
    ∧ (encodeRendered alphaImg ("jpg")).passedImage ≠ flattenOntoWhite alphaImg
    ∧ (flattenOntoWhite alphaImg).hasAlpha = false := by
  refine ⟨rfl, rfl, by decide, rfl⟩

/-- C3 amended: requesting JPEG output never raises — the handler always
produces a JPEG response with quality 90 — but no flattening happens: the
image handed to the encoder is exactly the rendered image, alpha channel
included.  Any transparency handling is left to the external Qt encoder. -/
theorem jpeg_encode_passthrough :
    ∀ (parseF : String → Option Rat) (renderJob : MapSettingsV → QImg)
      (req : RenderRequest),
      pyLower req.format_image = ("jpg") →
        (render_map parseF renderJob req).passedImage =
          renderJob (buildMapSettings parseF req)
        ∧ (render_map parseF renderJob req).codec = ("JPEG")
        ∧ (render_map parseF renderJob req).quality = some 90
        ∧ (render_map parseF renderJob req).contentType = ("image/jpeg") := by
  intro parseF renderJob req h
  simp [render_map, encodeRendered, h]

theorem jpeg_encode_passthrough_witness :
    pyLower jpgRenderReq.format_image = ("jpg")
    ∧ ((render_map noneParse (fun _ => alphaImg) jpgRenderReq).passedImage =
        (fun _ => alphaImg) (buildMapSettings noneParse jpgRenderReq)
      ∧ (render_map noneParse (fun _ => alphaImg) jpgRenderReq).codec = ("JPEG")
      ∧ (render_map noneParse (fun _ => alphaImg) jpgRenderReq).quality = some 90
      ∧ (render_map noneParse (fun _ => alphaImg) jpgRenderReq).contentType =
          ("image/jpeg")) :=
  ⟨by decide, jpeg_encode_passthrough noneParse (fun _ => alphaImg) jpgRenderReq (by decide)⟩

/-! ## C2: malformed extent strings are ignored, never fatal -/

/-- C2: a render request whose extent string is malformed — some
component is rejected by `float`, or the comma-split does not have
exactly four components — is ignored rather than rejected: the built
`QgsMapSettings` carries no extent, the whole request behaves exactly as
if no extent had been supplied, and the render still completes (the
handler is total and produces the same response).  The `except
ValueError: pass` of lines 1344-1345 is the `none` collapse inside
`resolveExtent`. -/
theorem render_malformed_extent_ignored :
    ∀ (parseF : String → Option Rat) (renderJob : MapSettingsV → QImg)
      (req : RenderRequest) (s : String),
      req.extent = some s →
      ((pySplitComma s).mapM parseF = none ∨
        ∀ cs, (pySplitComma s).mapM parseF = some cs → cs.length ≠ 4) →
        buildMapSettings parseF req = buildMapSettings parseF { req with extent := none }
        ∧ (buildMapSettings parseF req).extent = none
        ∧ render_map parseF renderJob req =
            render_map parseF renderJob { req with extent := none } := by
  intro parseF renderJob req s hs hmal
  have hre : resolveExtent parseF req.extent = none := by
    rw [hs]
    unfold resolveExtent
    by_cases he : s = ""
    · simp [he]
    · simp only [if_neg he]
      cases hm : (pySplitComma s).mapM parseF with
      | none => rfl
      | some cs =>
          rcases hmal with h1 | h2
          · rw [h1] at hm
            cases hm
          · have hlen := h2 cs hm
            rcases cs with _ | ⟨a, _ | ⟨b, _ | ⟨c, _ | ⟨d, _ | e⟩⟩⟩⟩
            · rfl
            · rfl
            · rfl
            · rfl
            · simp at hlen
            · rfl
  have hbuild : buildMapSettings parseF req =
      buildMapSettings parseF { req with extent := none } := by
    unfold buildMapSettings
    rw [hre]
    rfl
  refine ⟨hbuild, hre, ?_⟩
  simp only [render_map, hbuild]

/-- C2 witness: the concrete request with extent string `"a,b,c,d"`. -/
theorem render_malformed_extent_ignored_witness :
    cexRenderReq.extent = some ("a,b,c,d")
    ∧ ((pySplitComma ("a,b,c,d")).mapM noneParse = none ∨
        ∀ cs, (pySplitComma ("a,b,c,d")).mapM noneParse = some cs → cs.length ≠ 4)
    ∧ (buildMapSettings noneParse cexRenderReq =
          buildMapSettings noneParse { cexRenderReq with extent := none }
      ∧ (buildMapSettings noneParse cexRenderReq).extent = none
      ∧ render_map noneParse constJob cexRenderReq =
          render_map noneParse constJob { cexRenderReq with extent := none }) :=
  ⟨rfl, Or.inl (by decide),
    render_malformed_extent_ignored noneParse constJob cexRenderReq ("a,b,c,d")
      rfl (Or.inl (by decide))⟩

/-! ## C6: polygons need at least three points -/

/-- C6: both polygon-construction entry points explicitly reject inputs
with fewer than three points and never fall through to geometry
construction: `parcelle_detail` answers with a 400 response carrying
`Not enough points`, and `create_polygon_with_vertex_points` raises
(models the `raise Exception(...)` of qgis_utils.py line 398). -/
theorem polygon_few_points_rejected :
    (∀ (areaFn : List Pt → Rat) (points : List JsonPoint),
      points.length < 3 →
      parcelle_detail areaFn points =
        Except.error { status_code := 400, error := ("Not enough points") })
    ∧ (∀ (distFn : Pt → Pt → Rat) (areaFn : List Pt → Rat) (feats : List Geom),
      (extractPoints feats).length < 3 →
      create_polygon_with_vertex_points distFn areaFn feats =
        Except.error (("Il faut au moins 3 points pour creer un polygone"))) := by
  constructor
  · intro areaFn points h
    simp [parcelle_detail, h]
  · intro distFn areaFn feats h
    simp [create_polygon_with_vertex_points, h]

/-- C6 witness: a two-entry JSON payload and a two-point layer. -/
theorem polygon_few_points_rejected_witness :
    (([JsonPoint.other, JsonPoint.other].length < 3)
      ∧ parcelle_detail (fun _ => 0) [JsonPoint.other, JsonPoint.other] =
          Except.error { status_code := 400, error := ("Not enough points") })
    ∧ (((extractPoints [Geom.point ⟨0, 0⟩, Geom.point ⟨1, 0⟩]).length < 3)
      ∧ create_polygon_with_vertex_points (fun _ _ => 0) (fun _ => 0)
          [Geom.point ⟨0, 0⟩, Geom.point ⟨1, 0⟩] =
          Except.error (("Il faut au moins 3 points pour creer un polygone"))) :=
  ⟨⟨by decide, polygon_few_points_rejected.1 (fun _ => 0) _ (by decide)⟩,
   ⟨by decide, polygon_few_points_rejected.2 (fun _ _ => 0) (fun _ => 0) _ (by decide)⟩⟩

/-! ## C9: the session registry -/

/-- C9: `get_project_session` is idempotent for known ids and registers
new ones.  (i) For a session id already present in the table (truthy, as
every id this function ever registers is: conjunct (iii)), the stored
session object is returned unchanged together with the same id and the
table is untouched — hence two successive calls with the same id return
the identical session.  (ii) For a missing or absent id a new session is
created and registered so that the returned id maps to the returned
session in the resulting table.  (iii) Registered keys are never the
empty string (provided the generated uuid is not), which justifies the
truthiness hypothesis in (i): a table reachable through this function
only holds truthy keys. -/
theorem get_project_session_registry_behaviour :
    (∀ (fresh s : String) (table : SessionTable) (sess : ProjectSessionManager),
      s ≠ "" → dictLookup table s = some sess →
        get_project_session fresh (some s) table = ((sess, s), table))
    ∧ (∀ (fresh : String) (session_id : Option String) (table : SessionTable),
      (match session_id with
       | none => True
       | some s => s = "" ∨ dictLookup table s = none) →
      dictLookup (get_project_session fresh session_id table).2
          (get_project_session fresh session_id table).1.2 =
        some (get_project_session fresh session_id table).1.1)
    ∧ (∀ (fresh : String) (session_id : Option String) (table : SessionTable),
      fresh ≠ "" → (∀ k, k ∈ table.map Prod.fst → k ≠ "") →
        ∀ k, k ∈ ((get_project_session fresh session_id table).2).map Prod.fst →
          k ≠ "") := by
  refine ⟨?_, ?_, ?_⟩
  · intro fresh s table sess hne hlook
    simp [get_project_session, hne, hlook]
  · intro fresh session_id table hmiss
    match session_id with
    | none =>
        simp [get_project_session, registerNewSession, dictLookup_dictInsert_self]
    | some s =>
        by_cases he : s = ""
        · simp [get_project_session, he, registerNewSession,
            dictLookup_dictInsert_self]
        · rcases hmiss with h | h
          · exact absurd h he
          · simp [get_project_session, he, h, registerNewSession,
              dictLookup_dictInsert_self]
  · intro fresh session_id table hfresh htable k hk
    match session_id with
    | none =>
        simp only [get_project_session, registerNewSession] at hk
        rcases List.mem_cons.mp (dictInsert_keys table _ _ hk) with rfl | hmem
        · simpa [newSessionManager, pyTruthy] using hfresh
        · exact htable k hmem
    | some s =>
        by_cases he : s = ""
        · subst he
          simp only [get_project_session, if_pos rfl, registerNewSession] at hk
          rcases List.mem_cons.mp (dictInsert_keys table _ _ hk) with rfl | hmem
          · simpa [newSessionManager, pyTruthy] using hfresh
          · exact htable k hmem
        · simp only [get_project_session, if_neg he] at hk
          cases hl : dictLookup table s with
          | some sess =>
              rw [hl] at hk
              exact htable k hk
          | none =>
              rw [hl] at hk
              simp only [registerNewSession] at hk
              rcases List.mem_cons.mp (dictInsert_keys table _ _ hk) with rfl | hmem
              · simp [newSessionManager, pyTruthy, he]
              · exact htable k hmem

/-- C9 witness: a one-entry table hit, and a registration into the empty
table. -/
theorem get_project_session_registry_behaviour_witness :
    ((("a") : String) ≠ ""
      ∧ dictLookup [(("a"), ({ session_id := ("a") } : ProjectSessionManager))] ("a") =
          some { session_id := ("a") }
      ∧ get_project_session ("fresh-uuid") (some ("a"))
          [(("a"), { session_id := ("a") })] =
          (({ session_id := ("a") }, ("a")), [(("a"), { session_id := ("a") })]))
    ∧ ((match (some ("b") : Option String) with
        | none => True
        | some s => s = "" ∨ dictLookup ([] : SessionTable) s = none)
      ∧ dictLookup (get_project_session ("fresh-uuid") (some ("b")) []).2
            (get_project_session ("fresh-uuid") (some ("b")) []).1.2 =
          some (get_project_session ("fresh-uuid") (some ("b")) []).1.1) :=
  ⟨⟨by decide, by decide,
    get_project_session_registry_behaviour.1 ("fresh-uuid") ("a") _ _
      (by decide) (by decide)⟩,
   ⟨Or.inr (by decide),
    get_project_session_registry_behaviour.2.1 ("fresh-uuid") (some ("b")) []
      (Or.inr (by decide))⟩⟩

/-! ## C4: grid line placement (spec-modelled, §4.4) -/

lemma gridStep_mem (s mx : Rat) (hs : 0 < s) :
    ∀ (fuel : Nat) (v₀ w : Rat),
      w ∈ gridStep s mx fuel v₀ ↔ ∃ i : Nat, i < fuel ∧ w = v₀ + i * s ∧ w ≤ mx := by
  intro fuel
  induction fuel with
  | zero => intro v₀ w; simp [gridStep]
  | succ f ih =>
      intro v₀ w
      by_cases hv : v₀ ≤ mx
      · simp only [gridStep, if_pos hv, List.mem_cons]
        constructor
        · rintro (rfl | hw)
          · exact ⟨0, by omega, by push_cast; ring, hv⟩
          · obtain ⟨i, hif, hw2, hwmx⟩ := (ih (v₀ + s) w).mp hw
            refine ⟨i + 1, by omega, ?_, hwmx⟩
            rw [hw2]; push_cast; ring
        · rintro ⟨i, hif, rfl, hwmx⟩
          cases i with
          | zero => left; push_cast; ring
          | succ j =>
              right
              refine (ih (v₀ + s) _).mpr ⟨j, by omega, by push_cast; ring, hwmx⟩
      · simp only [gridStep, if_neg hv, List.not_mem_nil, false_iff]
        rintro ⟨i, hif, rfl, hwmx⟩
        have hnn : (0 : Rat) ≤ (i : Rat) * s := by positivity
        linarith

lemma gridPositions_mem (mn mx s : Rat) (hs : 0 < s) (v : Rat) :
    v ∈ gridPositions mn mx s ↔ ((∃ k : ℤ, v = k * s) ∧ mn ≤ v ∧ v ≤ mx) := by
  unfold gridPositions
  simp only [List.mem_filter, gridStep_mem s mx hs, decide_eq_true_eq]
  constructor
  · rintro ⟨⟨i, hif, rfl, hmx⟩, hmn⟩
    refine ⟨⟨⌊mn / s⌋ + i, ?_⟩, hmn, hmx⟩
    push_cast
    ring
  · rintro ⟨⟨k, rfl⟩, hmn, hmx⟩
    have hk_le : k ≤ ⌊mx / s⌋ := by
      apply Int.le_floor.mpr
      rw [le_div_iff₀ hs]
      exact hmx
    have hk_ge : ⌊mn / s⌋ ≤ k := by
      have h1 : mn / s ≤ (k : Rat) := by
        rw [div_le_iff₀ hs]
        exact hmn
      have h2 := Int.floor_mono h1
      rwa [Int.floor_intCast] at h2
    refine ⟨⟨(k - ⌊mn / s⌋).toNat, by omega, ?_, hmx⟩, hmn⟩
    have hcast : (((k - ⌊mn / s⌋).toNat : ℤ) : Rat) = (k : Rat) - (⌊mn / s⌋ : Rat) := by
      rw [Int.toNat_of_nonneg (by omega)]
      push_cast
      ring
    push_cast at hcast ⊢
    rw [hcast]
    ring

/-- C4: grid lines sit on absolute multiples of the spacing.  Modelled
from the spec (§4.4): the repository has no grid-drawing code — the
render endpoint validates and then ignores its grid options, and layout
maps delegate to the external `QgsLayoutItemMapGrid` — so the generation
rule is formalised from the spec's words.  For every positive spacing the
produced positions are exactly the multiples `k * s` inside
`[min, max]` (floor-aligned start, positions below `min` discarded), and
over extent `(0,0,100,50)` at spacing 10 there are exactly 11 vertical
lines `0,10,...,100` and 6 horizontal lines `0,10,...,50`, each labeled
under the `all` label-position policy. -/
theorem grid_lines_on_absolute_multiples :
    (∀ (mn mx s : Rat), 0 < s → ∀ v,
      v ∈ gridPositions mn mx s ↔ ((∃ k : ℤ, v = k * s) ∧ mn ≤ v ∧ v ≤ mx))
    ∧ gridPositions 0 100 10 = [0, 10, 20, 30, 40, 50, 60, 70, 80, 90, 100]
    ∧ gridPositions 0 50 10 = [0, 10, 20, 30, 40, 50]
    ∧ (gridPositions 0 100 10).length = 11
    ∧ (gridPositions 0 50 10).length = 6
    ∧ gridLabelPositions ("all") (gridPositions 0 100 10) = gridPositions 0 100 10
    ∧ gridLabelPositions ("all") (gridPositions 0 50 10) = gridPositions 0 50 10 := by
  have h100 : gridPositions 0 100 10 = [0, 10, 20, 30, 40, 50, 60, 70, 80, 90, 100] := by
    norm_num [gridPositions, gridStep]
  have h50 : gridPositions 0 50 10 = [0, 10, 20, 30, 40, 50] := by
    norm_num [gridPositions, gridStep]
  refine ⟨fun mn mx s hs v => gridPositions_mem mn mx s hs v, h100, h50, ?_, ?_, ?_, ?_⟩
  · rw [h100]; rfl
  · rw [h50]; rfl
  · simp [gridLabelPositions]
  · simp [gridLabelPositions]

/-- C4 witness: the membership characterisation applied at spacing 10
over `[0, 100]` puts a line at 10. -/
theorem grid_lines_on_absolute_multiples_witness :
    (0 : Rat) < 10 ∧ (10 : Rat) ∈ gridPositions 0 100 10 :=
  ⟨by norm_num,
    (grid_lines_on_absolute_multiples.1 0 100 10 (by norm_num) 10).mpr
      ⟨⟨1, by norm_num⟩, by norm_num, by norm_num⟩⟩

/-! ## C10: upload never overwrites -/

lemma dictLookup_dictInsert_ne (t : List (String × α)) (k q : String) (v : α)
    (h : q ≠ k) : dictLookup (dictInsert t k v) q = dictLookup t q := by
  have hqk : (q == k) = false := by simp [h]
  induction t with
  | nil =>
      simp only [dictInsert, dictLookup, List.lookup]
      rw [hqk]
  | cons hd tl ih =>
      obtain ⟨k', v'⟩ := hd
      by_cases hk : k' = k
      · subst hk
        simp only [dictInsert, if_pos rfl, dictLookup, List.lookup]
        rw [hqk]
      · by_cases hq : q = k'
        · subst hq
          simp [dictInsert, if_neg hk, dictLookup, List.lookup]
        · have hqk' : (q == k') = false := by simp [hq]
          simp only [dictInsert, if_neg hk, dictLookup, List.lookup, hqk'] at ih ⊢
          exact ih

lemma contains_eq_true_iff (l : List String) (x : String) :
    l.contains x = true ↔ x ∈ l := by
  simp

lemma contains_eq_false_iff (l : List String) (x : String) :
    l.contains x = false ↔ x ∉ l := by
  simp

lemma natDigitsRev_eq_digits : ∀ (fuel n : Nat), n ≤ fuel →
    natDigitsRev fuel n = Nat.digits 10 n := by
  intro fuel
  induction fuel with
  | zero =>
      intro n hn
      have h0 : n = 0 := by omega
      subst h0
      simp [natDigitsRev]
  | succ f ih =>
      intro n hn
      by_cases h0 : n = 0
      · subst h0
        simp [natDigitsRev]
      · rw [natDigitsRev, if_neg h0,
          Nat.digits_def' (by norm_num : (1 : Nat) < 10) (Nat.pos_of_ne_zero h0),
          ih (n / 10) ?_]
        have hlt : n / 10 < n := Nat.div_lt_self (Nat.pos_of_ne_zero h0) (by norm_num)
        omega

lemma digitChar_inj : ∀ d1 < 10, ∀ d2 < 10,
    Char.ofNat (48 + d1) = Char.ofNat (48 + d2) → d1 = d2 := by decide

lemma map_digitChar_inj : ∀ (l1 l2 : List Nat), (∀ d ∈ l1, d < 10) →
    (∀ d ∈ l2, d < 10) →
    l1.map (fun d => Char.ofNat (48 + d)) = l2.map (fun d => Char.ofNat (48 + d)) →
    l1 = l2 := by
  intro l1
  induction l1 with
  | nil =>
      intro l2 _ _ h
      cases l2 with
      | nil => rfl
      | cons d2 t2 => simp at h
  | cons d1 t1 ih =>
      intro l2 h1 h2 h
      cases l2 with
      | nil => simp at h
      | cons d2 t2 =>
          simp only [List.map_cons, List.cons.injEq] at h
          have hd := digitChar_inj d1 (h1 d1 (by simp)) d2 (h2 d2 (by simp)) h.1
          rw [hd, ih t2 (fun d hd2 => h1 d (by simp [hd2]))
            (fun d hd2 => h2 d (by simp [hd2])) h.2]

lemma natStr_inj : ∀ a b : Nat, 1 ≤ a → 1 ≤ b → natStr a = natStr b → a = b := by
  intro a b ha hb h
  unfold natStr at h
  rw [if_neg (by omega), if_neg (by omega)] at h
  have hdata := congrArg String.data h
  simp only [natDigitsRev_eq_digits a a le_rfl, natDigitsRev_eq_digits b b le_rfl]
    at hdata
  have hda : ∀ d ∈ (Nat.digits 10 a).reverse, d < 10 := fun d hd =>
    Nat.digits_lt_base (by norm_num) (List.mem_reverse.mp hd)
  have hdb : ∀ d ∈ (Nat.digits 10 b).reverse, d < 10 := fun d hd =>
    Nat.digits_lt_base (by norm_num) (List.mem_reverse.mp hd)
  have hrev := map_digitChar_inj _ _ hda hdb hdata
  have hdig : Nat.digits 10 a = Nat.digits 10 b := by
    simpa using congrArg List.reverse hrev
  calc a = Nat.ofDigits 10 (Nat.digits 10 a) := (Nat.ofDigits_digits 10 a).symm
    _ = Nat.ofDigits 10 (Nat.digits 10 b) := by rw [hdig]
    _ = b := Nat.ofDigits_digits 10 b

lemma string_data_append (a b : String) : (a ++ b).data = a.data ++ b.data := rfl

lemma candidate_inj (dir base ext : String) : ∀ a b : Nat, 1 ≤ a → 1 ≤ b →
    pyJoin dir (numberedName base ext a) = pyJoin dir (numberedName base ext b) →
    a = b := by
  intro a b ha hb h
  apply natStr_inj a b ha hb
  have hd := congrArg String.data h
  simp only [pyJoin, numberedName, string_data_append, List.append_assoc] at hd
  have h1 := List.append_cancel_left hd
  have h2 := List.append_cancel_left h1
  have h3 := List.append_cancel_left h2
  have h4 := List.append_cancel_left h3
  have h5 := List.append_cancel_right h4
  exact congrArg String.mk h5

lemma exists_free_candidate (fs : List String) (dir base ext : String) :
    ∃ j, 1 ≤ j ∧ j ≤ fs.length + 1 ∧
      fs.contains (pyJoin dir (numberedName base ext j)) = false := by
  by_contra hcon
  push_neg at hcon
  have hsub : ∀ i < fs.length + 1, pyJoin dir (numberedName base ext (i + 1)) ∈ fs := by
    intro i hi
    have hne := hcon (i + 1) (by omega) (by omega)
    have := eq_true_of_ne_false hne
    exact (contains_eq_true_iff fs _).mp this
  have hnodup : ((List.range (fs.length + 1)).map
      (fun i => pyJoin dir (numberedName base ext (i + 1)))).Nodup := by
    refine List.Nodup.map ?_ (List.nodup_range _)
    intro i j hij
    have := candidate_inj dir base ext (i + 1) (j + 1) (by omega) (by omega) hij
    omega
  have hLsub : ((List.range (fs.length + 1)).map
      (fun i => pyJoin dir (numberedName base ext (i + 1)))) ⊆ fs := by
    intro x hx
    simp only [List.mem_map, List.mem_range] at hx
    obtain ⟨i, hi, rfl⟩ := hx
    exact hsub i hi
  have hcard : ((List.range (fs.length + 1)).map
      (fun i => pyJoin dir (numberedName base ext (i + 1)))).toFinset.card ≤
      fs.toFinset.card := by
    apply Finset.card_le_card
    intro x hx
    exact List.mem_toFinset.mpr (hLsub (List.mem_toFinset.mp hx))
  rw [List.toFinset_card_of_nodup hnodup] at hcard
  have hlen : ((List.range (fs.length + 1)).map
      (fun i => pyJoin dir (numberedName base ext (i + 1)))).length =
      fs.length + 1 := by simp
  have h2 := fs.toFinset_card_le
  omega

lemma findFreePath_not_exists (fs : List String) (dir base ext : String) :
    ∀ (fuel k : Nat) (cur : String),
      (fs.contains cur = false ∨
        ∃ j, k ≤ j ∧ j < k + fuel ∧
          fs.contains (pyJoin dir (numberedName base ext j)) = false) →
      fs.contains (findFreePath fs dir base ext fuel k cur) = false := by
  intro fuel
  induction fuel with
  | zero =>
      intro k cur h
      rcases h with h | ⟨j, hj1, hj2, _⟩
      · simpa [findFreePath] using h
      · omega
  | succ f ih =>
      intro k cur h
      cases hcur : fs.contains cur with
      | false =>
          have hres : findFreePath fs dir base ext (f + 1) k cur = cur := by
            rw [findFreePath, hcur]
            rfl
          rw [hres]
          exact hcur
      | true =>
          have hres : findFreePath fs dir base ext (f + 1) k cur =
              findFreePath fs dir base ext f (k + 1)
                (pyJoin dir (numberedName base ext k)) := by
            rw [findFreePath, hcur]
            rfl
          rw [hres]
          apply ih
          rcases h with h | ⟨j, hj1, hj2, hfree⟩
          · rw [hcur] at h
            cases h
          · by_cases hjk : j = k
            · subst hjk
              exact Or.inl hfree
            · exact Or.inr ⟨j, by omega, by omega, hfree⟩

lemma findFreePath_shape (fs : List String) (dir base ext : String) :
    ∀ (fuel k : Nat) (cur : String),
      findFreePath fs dir base ext fuel k cur = cur ∨
        ∃ j, k ≤ j ∧
          findFreePath fs dir base ext fuel k cur =
            pyJoin dir (numberedName base ext j) := by
  intro fuel
  induction fuel with
  | zero =>
      intro k cur
      left
      rfl
  | succ f ih =>
      intro k cur
      cases hcur : fs.contains cur with
      | false =>
          left
          rw [findFreePath, hcur]
          rfl
      | true =>
          have hres0 : findFreePath fs dir base ext (f + 1) k cur =
              findFreePath fs dir base ext f (k + 1)
                (pyJoin dir (numberedName base ext k)) := by
            rw [findFreePath, hcur]
            rfl
          rcases ih (k + 1) (pyJoin dir (numberedName base ext k)) with h | ⟨j, hj, hres⟩
          · right
            exact ⟨k, le_rfl, by rw [hres0, h]⟩
          · right
            exact ⟨j, by omega, by rw [hres0, hres]⟩

lemma resolveUploadPath_free (fs : List String) (dir filename : String) :
    fs.contains (resolveUploadPath fs dir filename) = false := by
  unfold resolveUploadPath
  apply findFreePath_not_exists
  obtain ⟨j, hj1, hj2, hfree⟩ :=
    exists_free_candidate fs dir (splitext filename).1 (splitext filename).2
  exact Or.inr ⟨j, hj1, by omega, hfree⟩

/-- C10: file upload never overwrites an existing file.  When the natural
destination `dir/filename` is already taken, the stored path is a fresh
`base_k ext` variant (`k ≥ 1`), the chosen path does not previously
exist, every pre-existing file keeps its content, and the uploaded
content is found under the fresh path afterwards. -/
theorem upload_file_never_overwrites :
    ∀ (fsFiles : List (String × String)) (dir filename content : String),
      pyJoin dir filename ∈ fsFiles.map Prod.fst →
      ((fsFiles.map Prod.fst).contains
          (resolveUploadPath (fsFiles.map Prod.fst) dir filename) = false
      ∧ (∃ k, 1 ≤ k ∧ resolveUploadPath (fsFiles.map Prod.fst) dir filename =
          pyJoin dir (numberedName (splitext filename).1 (splitext filename).2 k))
      ∧ (upload_file fsFiles dir filename content).1 =
          resolveUploadPath (fsFiles.map Prod.fst) dir filename
      ∧ (∀ q c, (q, c) ∈ fsFiles → (q, c) ∈ (upload_file fsFiles dir filename content).2)
      ∧ dictLookup (upload_file fsFiles dir filename content).2
          (resolveUploadPath (fsFiles.map Prod.fst) dir filename) = some content
      ∧ (∀ q, q ≠ resolveUploadPath (fsFiles.map Prod.fst) dir filename →
          dictLookup (upload_file fsFiles dir filename content).2 q =
            dictLookup fsFiles q)) := by
  intro fsFiles dir filename content hcoll
  have hfree := resolveUploadPath_free (fsFiles.map Prod.fst) dir filename
  have hnotmem : resolveUploadPath (fsFiles.map Prod.fst) dir filename ∉
      fsFiles.map Prod.fst :=
    (contains_eq_false_iff _ _).mp hfree
  refine ⟨hfree, ?_, rfl, ?_, ?_, ?_⟩
  · -- shape of the resolved path under a collision
    have hshape := findFreePath_shape (fsFiles.map Prod.fst) dir
      (splitext filename).1 (splitext filename).2
      ((fsFiles.map Prod.fst).length + 2) 1 (pyJoin dir filename)
    rcases hshape with hcur | ⟨j, hj, hres⟩
    · exfalso
      have : resolveUploadPath (fsFiles.map Prod.fst) dir filename =
          pyJoin dir filename := hcur
      rw [this] at hnotmem
      exact hnotmem hcoll
    · exact ⟨j, hj, hres⟩
  · intro q c hq
    show (q, c) ∈ dictInsert fsFiles _ content
    rw [dictInsert_of_not_mem _ _ _ hnotmem]
    exact List.mem_append_left _ hq
  · exact dictLookup_dictInsert_self fsFiles _ content
  · intro q hq
    exact dictLookup_dictInsert_ne fsFiles _ q content hq

/-- C10 witness: uploading `a.txt` into a directory already holding
`d/a.txt` stores the content at the fresh path `d/a_1.txt` and keeps the
old file intact. -/
theorem upload_file_never_overwrites_witness :
    (pyJoin ("d") ("a.txt") ∈ ([(("d/a.txt"), ("old"))].map Prod.fst))
    ∧ ((([(("d/a.txt"), ("old"))].map Prod.fst)).contains
        (resolveUploadPath ([(("d/a.txt"), ("old"))].map Prod.fst) ("d") ("a.txt")) = false
      ∧ (∃ k, 1 ≤ k ∧
          resolveUploadPath ([(("d/a.txt"), ("old"))].map Prod.fst) ("d") ("a.txt") =
            pyJoin ("d") (numberedName (splitext ("a.txt")).1 (splitext ("a.txt")).2 k))
      ∧ (upload_file [(("d/a.txt"), ("old"))] ("d") ("a.txt") ("new")).1 =
          resolveUploadPath ([(("d/a.txt"), ("old"))].map Prod.fst) ("d") ("a.txt")
      ∧ (∀ q c, (q, c) ∈ [(("d/a.txt"), ("old"))] →
          (q, c) ∈ (upload_file [(("d/a.txt"), ("old"))] ("d") ("a.txt") ("new")).2)
      ∧ dictLookup (upload_file [(("d/a.txt"), ("old"))] ("d") ("a.txt") ("new")).2
          (resolveUploadPath ([(("d/a.txt"), ("old"))].map Prod.fst) ("d") ("a.txt")) =
          some ("new")
      ∧ (∀ q, q ≠ resolveUploadPath ([(("d/a.txt"), ("old"))].map Prod.fst) ("d") ("a.txt") →
          dictLookup (upload_file [(("d/a.txt"), ("old"))] ("d") ("a.txt") ("new")).2 q =
            dictLookup [(("d/a.txt"), ("old"))] q)) :=
  ⟨by decide,
    upload_file_never_overwrites [(("d/a.txt"), ("old"))] ("d") ("a.txt") ("new")
      (by decide)⟩

/-! ## C8: vertex ordering of `create_polygon_with_vertex_points` -/

lemma getLast_eq_of_getLast? {l : List Pt} {x : Pt} (h : l ≠ [])
    (hx : l.getLast? = some x) : l.getLast h = x := by
  rw [List.getLast?_eq_getLast l h] at hx
  exact Option.some_inj.mp hx

lemma getLast_append_singleton (l : List Pt) (a : Pt) (h : l ++ [a] ≠ []) :
    (l ++ [a]).getLast h = a :=
  getLast_eq_of_getLast? h (List.getLast?_concat l)

lemma getLast_reverse_headI (l : List Pt) (hr : l.reverse ≠ []) :
    l.reverse.getLast hr = l.headI := by
  apply getLast_eq_of_getLast? hr
  rw [List.getLast?_reverse]
  cases l with
  | nil => simp at hr
  | cons x xs => rfl

lemma zip_tail_append (a : Pt) :
    ∀ (l : List Pt) (h : l ≠ []),
      l.zip (l.tail ++ [a]) = consecPairs l ++ [(l.getLast h, a)] := by
  intro l
  induction l with
  | nil => intro h; exact absurd rfl h
  | cons x xs ih =>
      intro h
      cases xs with
      | nil => simp [consecPairs]
      | cons y ys =>
          have hy : (y :: ys : List Pt) ≠ [] := by simp
          have hih := ih hy
          simp only [List.tail_cons] at hih
          simp only [List.tail_cons, List.cons_append, List.zip_cons_cons,
            consecPairs, List.getLast_cons hy]
          simp only [consecPairs, List.tail_cons] at hih
          rw [hih]

lemma consecPairs_append_last :
    ∀ (l : List Pt) (h : l ≠ []) (a : Pt),
      consecPairs (l ++ [a]) = consecPairs l ++ [(l.getLast h, a)] := by
  intro l
  induction l with
  | nil => intro h; exact absurd rfl h
  | cons x xs ih =>
      intro h a
      cases xs with
      | nil => simp [consecPairs]
      | cons y ys =>
          have hy : (y :: ys : List Pt) ≠ [] := by simp
          have hih := ih hy a
          simp only [List.cons_append, consecPairs, List.tail_cons,
            List.zip_cons_cons, List.getLast_cons hy] at hih ⊢
          rw [hih]

lemma shoelaceS_decomp (l : List Pt) (h : l ≠ []) :
    shoelaceS l = pairSum (consecPairs l) + edgeTerm (l.getLast h, l.headI) := by
  cases l with
  | nil => exact absurd rfl h
  | cons p rest =>
      have hz := zip_tail_append p (p :: rest) h
      simp only [List.tail_cons] at hz
      simp only [shoelaceS, cyclicPairs, hz, pairSum, List.map_append,
        List.sum_append, List.map_cons, List.map_nil, List.sum_cons,
        List.sum_nil, List.headI]
      ring

lemma shoelaceS_single_rotation (p : Pt) (rest : List Pt) :
    shoelaceS (rest ++ [p]) = shoelaceS (p :: rest) := by
  cases rest with
  | nil => rfl
  | cons q rs =>
      have h1 : (q :: rs : List Pt) ≠ [] := by simp
      have h2 : ((q :: rs) ++ [p] : List Pt) ≠ [] := by simp
      have h3 : (p :: q :: rs : List Pt) ≠ [] := by simp
      rw [shoelaceS_decomp _ h2, shoelaceS_decomp _ h3]
      rw [consecPairs_append_last _ h1 p]
      have hlast2 : ((q :: rs) ++ [p]).getLast h2 = p :=
        getLast_append_singleton _ _ h2
      have hlast3 : (p :: q :: rs).getLast h3 = (q :: rs).getLast h1 :=
        List.getLast_cons h1
      have hhead2 : ((q :: rs) ++ [p]).headI = q := rfl
      rw [hlast2, hlast3, hhead2]
      simp only [consecPairs, List.tail_cons, List.zip_cons_cons, pairSum,
        List.map_append, List.sum_append, List.map_cons, List.map_nil,
        List.sum_cons, List.sum_nil, List.headI]
      ring

lemma shoelaceS_rotate (n : Nat) : ∀ (l : List Pt),
    shoelaceS (l.rotate n) = shoelaceS l := by
  induction n with
  | zero => intro l; rw [List.rotate_zero]
  | succ m ih =>
      intro l
      cases l with
      | nil => rw [List.rotate_nil]
      | cons a as =>
          rw [List.rotate_cons_succ, ih (as ++ [a]), shoelaceS_single_rotation]

lemma edgeTerm_swap (pq : Pt × Pt) : edgeTerm pq.swap = - edgeTerm pq := by
  obtain ⟨u, v⟩ := pq
  simp only [edgeTerm, Prod.swap_prod_mk]
  ring

lemma pairSum_reverse_swap (l : List (Pt × Pt)) :
    pairSum (l.reverse.map Prod.swap) = - pairSum l := by
  induction l with
  | nil => simp [pairSum]
  | cons x xs ih =>
      simp only [pairSum, List.reverse_cons, List.map_append, List.map_cons,
        List.map_nil, List.sum_append, List.sum_cons, List.sum_nil] at ih ⊢
      rw [ih]
      have := edgeTerm_swap x
      rw [this]
      ring

lemma headI_eq_of_head? {l : List Pt} {x : Pt} (h : l.head? = some x) :
    l.headI = x := by
  cases l with
  | nil => cases h
  | cons a t =>
      simp only [List.head?_cons, Option.some.injEq] at h
      simpa [List.headI] using h

lemma consecPairs_reverse :
    ∀ (l : List Pt), consecPairs l.reverse = (consecPairs l).reverse.map Prod.swap := by
  intro l
  induction l with
  | nil => rfl
  | cons a as ih =>
      cases as with
      | nil => rfl
      | cons b bs =>
          have hrev : (b :: bs : List Pt).reverse ≠ [] := by simp
          rw [List.reverse_cons]
          rw [consecPairs_append_last _ hrev a, ih]
          have hgl : (b :: bs : List Pt).reverse.getLast hrev = b :=
            getLast_reverse_headI (b :: bs) hrev
          rw [hgl]
          simp only [consecPairs, List.tail_cons, List.zip_cons_cons,
            List.reverse_cons, List.map_append, List.map_cons, List.map_nil,
            Prod.swap_prod_mk]

lemma shoelaceS_reverse (l : List Pt) : shoelaceS l.reverse = - shoelaceS l := by
  cases l with
  | nil => simp [shoelaceS, cyclicPairs]
  | cons a as =>
      cases as with
      | nil =>
          simp [shoelaceS, cyclicPairs, edgeTerm]
      | cons b bs =>
          have h1 : (a :: b :: bs : List Pt) ≠ [] := by simp
          have h2 : (a :: b :: bs : List Pt).reverse ≠ [] := by simp
          rw [shoelaceS_decomp _ h2, shoelaceS_decomp _ h1]
          rw [consecPairs_reverse, pairSum_reverse_swap]
          have hgl : (a :: b :: bs : List Pt).reverse.getLast h2 = a :=
            getLast_reverse_headI (a :: b :: bs) h2
          have hhd : (a :: b :: bs : List Pt).reverse.headI =
              (a :: b :: bs).getLast h1 := by
            apply headI_eq_of_head?
            rw [List.head?_reverse]
            exact List.getLast?_eq_getLast _ h1
          rw [hgl, hhd]
          have hsw : edgeTerm (a, (a :: b :: bs).getLast h1) =
              - edgeTerm ((a :: b :: bs).getLast h1, a) := by
            simpa using edgeTerm_swap ((a :: b :: bs).getLast h1, a)
          rw [hsw]
          simp only [List.headI]
          ring

lemma northIdx_eq_aux (ps : List Pt) : northIdx ps = northFoldAux ps 0 ps.length := rfl

lemma northFoldAux_spec (ps : List Pt) : ∀ (n b : Nat),
    (ps.getD b default).y ≤ (ps.getD (northFoldAux ps b n) default).y
    ∧ (∀ i, i < n → (ps.getD i default).y ≤ (ps.getD (northFoldAux ps b n) default).y)
    ∧ (northFoldAux ps b n = b ∨ northFoldAux ps b n < n) := by
  intro n
  induction n with
  | zero =>
      intro b
      refine ⟨le_rfl, fun i hi => absurd hi (by omega), Or.inl rfl⟩
  | succ m ih =>
      intro b
      have hfold : northFoldAux ps b (m + 1) =
          (if (ps.getD (northFoldAux ps b m) default).y < (ps.getD m default).y
           then m else northFoldAux ps b m) := by
        simp [northFoldAux, List.range_succ, List.foldl_append]
      obtain ⟨hb, hall, hbound⟩ := ih b
      by_cases hc : (ps.getD (northFoldAux ps b m) default).y < (ps.getD m default).y
      · rw [hfold, if_pos hc]
        refine ⟨le_of_lt (lt_of_le_of_lt hb hc), ?_, Or.inr (by omega)⟩
        intro i hi
        rcases Nat.lt_succ_iff_lt_or_eq.mp hi with h | h
        · exact le_of_lt (lt_of_le_of_lt (hall i h) hc)
        · subst h
          exact le_rfl
      · rw [hfold, if_neg hc]
        refine ⟨hb, ?_, ?_⟩
        · intro i hi
          rcases Nat.lt_succ_iff_lt_or_eq.mp hi with h | h
          · exact hall i h
          · subst h
            exact not_lt.mp hc
        · rcases hbound with h | h
          · exact Or.inl h
          · exact Or.inr (by omega)

lemma northIdx_le (ps : List Pt) : northIdx ps ≤ ps.length := by
  rw [northIdx_eq_aux]
  rcases (northFoldAux_spec ps ps.length 0).2.2 with h | h
  · omega
  · omega

lemma northIdx_lt (ps : List Pt) (h : ps ≠ []) : northIdx ps < ps.length := by
  have hpos : 0 < ps.length := List.length_pos.mpr h
  rw [northIdx_eq_aux]
  rcases (northFoldAux_spec ps ps.length 0).2.2 with h1 | h1
  · omega
  · omega

lemma northIdx_max (ps : List Pt) :
    ∀ i, i < ps.length →
      (ps.getD i default).y ≤ (ps.getD (northIdx ps) default).y := by
  rw [northIdx_eq_aux]
  exact (northFoldAux_spec ps ps.length 0).2.1

lemma shift_isRotated (l : List Pt) : l.IsRotated (shift_to_northernmost l) := by
  refine ⟨northIdx l, ?_⟩
  rw [List.rotate_eq_drop_append_take (northIdx_le l)]
  rfl

lemma shift_mem {l : List Pt} {q : Pt} (hq : q ∈ shift_to_northernmost l) : q ∈ l :=
  (shift_isRotated l).mem_iff.mpr hq

lemma shift_head_max (l : List Pt) (h : l ≠ []) :
    ∀ q ∈ shift_to_northernmost l, q.y ≤ ((shift_to_northernmost l).headI).y := by
  have hk := northIdx_lt l h
  intro q hq
  have hd := List.drop_eq_getElem_cons hk
  have hhead : (shift_to_northernmost l).headI = l.getD (northIdx l) default := by
    unfold shift_to_northernmost
    rw [hd, List.cons_append]
    have hgd : l.getD (northIdx l) default = l.get ⟨northIdx l, hk⟩ :=
      List.getD_eq_getElem l default hk
    rw [hgd]
    rfl
  rw [hhead]
  have hql : q ∈ l := shift_mem hq
  obtain ⟨⟨i, hi⟩, rfl⟩ := List.mem_iff_get.mp hql
  have hmax := northIdx_max l i hi
  have hgd2 : l.getD i default = l.get ⟨i, hi⟩ := List.getD_eq_getElem l default hi
  rwa [hgd2] at hmax

lemma dedupGo_length_le : ∀ (seen ps : List Pt), (dedupGo seen ps).length ≤ ps.length := by
  intro seen ps
  induction ps generalizing seen with
  | nil => simp [dedupGo]
  | cons p rest ih =>
      by_cases hp : p ∈ seen
      · simp only [dedupGo, if_pos hp]
        exact le_trans (ih seen) (by simp)
      · simp only [dedupGo, if_neg hp, List.length_cons]
        exact Nat.succ_le_succ (ih (p :: seen))

lemma shift_length (l : List Pt) : (shift_to_northernmost l).length = l.length := by
  simp only [shift_to_northernmost, List.length_append, List.length_drop,
    List.length_take]
  have := northIdx_le l
  omega

lemma shoelaceS_shift (l : List Pt) :
    shoelaceS (shift_to_northernmost l) = shoelaceS l := by
  have h := shoelaceS_rotate (northIdx l) l
  rwa [List.rotate_eq_drop_append_take (northIdx_le l)] at h

lemma create_polygon_eq (distFn : Pt → Pt → Rat) (areaFn : List Pt → Rat)
    (feats : List Geom) (hlen : ¬ (extractPoints feats).length < 3)
    (hne : ¬ extractPoints feats = []) :
    create_polygon_with_vertex_points distFn areaFn feats =
      Except.ok
        ({ ring := orderedVertexRing (extractPoints feats)
           area := areaFn (orderedVertexRing (extractPoints feats)) },
         { feats := vertexFeatures distFn (orderedVertexRing (extractPoints feats)) }) := by
  unfold create_polygon_with_vertex_points orderedVertexRing vertexFeatures
  rw [if_neg hlen, if_neg hne]

/-- C8 amended: for every accepted input with at least 3 points after
deduplication, the vertex sequence used for the polygon and the named
vertex features is a rotation of the deduplicated input when that input
already passes the `is_clockwise` sign test, and a rotation of its
*reversal* otherwise; it begins at a point of maximal `y`; and it is
clockwise per the sign test whenever the deduplicated input has a
*nonzero* shoelace sum (for collinear/degenerate inputs the sum is `0`
and both orientations fail the strict test — see the counterexample). -/
theorem create_polygon_vertex_order :
    ∀ (distFn : Pt → Pt → Rat) (areaFn : List Pt → Rat) (feats : List Geom),
      3 ≤ (dedupStable (extractPoints feats)).length →
      ∃ polyL ptsL,
        create_polygon_with_vertex_points distFn areaFn feats =
          Except.ok (polyL, ptsL)
        ∧ (if is_clockwise (dedupStable (extractPoints feats))
            then (dedupStable (extractPoints feats)).IsRotated polyL.ring
            else (dedupStable (extractPoints feats)).reverse.IsRotated polyL.ring)
        ∧ polyL.ring ≠ []
        ∧ (∀ q ∈ polyL.ring, q.y ≤ (polyL.ring.headI).y)
        ∧ (shoelaceS (dedupStable (extractPoints feats)) ≠ 0 →
            is_clockwise polyL.ring = true)
        ∧ ptsL.feats.length = polyL.ring.length := by
  intro distFn areaFn feats h3
  have hle : (dedupStable (extractPoints feats)).length ≤ (extractPoints feats).length :=
    dedupGo_length_le [] (extractPoints feats)
  have hlen : ¬ (extractPoints feats).length < 3 := by omega
  have hne : ¬ extractPoints feats = [] := by
    intro hc
    rw [hc] at hlen
    simp at hlen
  have hsorted1_len :
      (if is_clockwise (dedupStable (extractPoints feats))
        then dedupStable (extractPoints feats)
        else (dedupStable (extractPoints feats)).reverse).length =
      (dedupStable (extractPoints feats)).length := by
    by_cases hcw : is_clockwise (dedupStable (extractPoints feats))
    · rw [if_pos hcw]
    · rw [if_neg hcw, List.length_reverse]
  have hring_len : (orderedVertexRing (extractPoints feats)).length =
      (dedupStable (extractPoints feats)).length := by
    rw [orderedVertexRing, shift_length, hsorted1_len]
  have hring_ne : orderedVertexRing (extractPoints feats) ≠ [] := by
    apply List.ne_nil_of_length_pos
    rw [hring_len]
    omega
  have hsorted1_ne :
      (if is_clockwise (dedupStable (extractPoints feats))
        then dedupStable (extractPoints feats)
        else (dedupStable (extractPoints feats)).reverse) ≠ [] := by
    apply List.ne_nil_of_length_pos
    rw [hsorted1_len]
    omega
  refine ⟨_, _, create_polygon_eq distFn areaFn feats hlen hne, ?_, hring_ne, ?_, ?_, ?_⟩
  · -- rotation of the (possibly reversed) deduplicated input
    by_cases hcw : is_clockwise (dedupStable (extractPoints feats))
    · rw [if_pos hcw]
      show (dedupStable (extractPoints feats)).IsRotated
        (orderedVertexRing (extractPoints feats))
      rw [orderedVertexRing, if_pos hcw]
      exact shift_isRotated _
    · rw [if_neg hcw]
      show (dedupStable (extractPoints feats)).reverse.IsRotated
        (orderedVertexRing (extractPoints feats))
      rw [orderedVertexRing, if_neg hcw]
      exact shift_isRotated _
  · -- the head has maximal y
    show ∀ q ∈ orderedVertexRing (extractPoints feats),
      q.y ≤ ((orderedVertexRing (extractPoints feats)).headI).y
    rw [orderedVertexRing]
    exact shift_head_max _ hsorted1_ne
  · -- clockwise whenever the shoelace sum is nonzero
    intro hS
    show is_clockwise (orderedVertexRing (extractPoints feats)) = true
    rw [is_clockwise, decide_eq_true_eq, orderedVertexRing, shoelaceS_shift]
    by_cases hcw : is_clockwise (dedupStable (extractPoints feats))
    · rw [if_pos hcw]
      rw [is_clockwise, decide_eq_true_eq] at hcw
      exact hcw
    · rw [if_neg hcw, shoelaceS_reverse]
      rw [is_clockwise, decide_eq_true_eq] at hcw
      push_neg at hcw
      have : shoelaceS (dedupStable (extractPoints feats)) < 0 :=
        lt_of_le_of_ne hcw hS
      linarith
  · -- one named vertex feature per ring vertex
    show (vertexFeatures distFn (orderedVertexRing (extractPoints feats))).length =
      (orderedVertexRing (extractPoints feats)).length
    simp [vertexFeatures]

/-- C8 counterexample: three distinct collinear points are accepted (3
points after deduplication) but break the claim as stated.  The computed
vertex sequence is `[(2,0), (1,0), (0,0)]` — the *reversal* of the
deduplicated input `[(0,0), (1,0), (2,0)]`, hence a rotation of no
rotation of it — and it fails the `is_clockwise` sign test (the shoelace
sum of collinear points is `0`, and `0 > 0` is false for both
orientations). -/
theorem collinear_input_breaks_vertex_claim :
    3 ≤ (dedupStable (extractPoints collinearFeats)).length
    ∧ (create_polygon_with_vertex_points (fun _ _ => 0) (fun _ => 0) collinearFeats).map
        (fun r => r.1.ring) = Except.ok [(⟨2, 0⟩ : Pt), ⟨1, 0⟩, ⟨0, 0⟩]
    ∧ is_clockwise [(⟨2, 0⟩ : Pt), ⟨1, 0⟩, ⟨0, 0⟩] = false
    ∧ ¬ (dedupStable (extractPoints collinearFeats)).IsRotated
        [(⟨2, 0⟩ : Pt), ⟨1, 0⟩, ⟨0, 0⟩] := by
  refine ⟨by decide, ?_, ?_, by decide⟩
  · rw [create_polygon_eq (fun _ _ => 0) (fun _ => 0) collinearFeats
      (by decide) (by decide)]
    norm_num [orderedVertexRing, extractPoints, collinearFeats, dedupStable,
      dedupGo, is_clockwise, shoelaceS, cyclicPairs, edgeTerm, Except.map]
    decide
  · norm_num [is_clockwise, shoelaceS, cyclicPairs, edgeTerm]

/-- C8 witness: the amended ordering theorem applied to a proper
triangle. -/
theorem create_polygon_vertex_order_witness :
    3 ≤ (dedupStable (extractPoints triangleFeats)).length
    ∧ (∃ polyL ptsL,
        create_polygon_with_vertex_points (fun _ _ => 0) (fun _ => 0) triangleFeats =
          Except.ok (polyL, ptsL)
        ∧ (if is_clockwise (dedupStable (extractPoints triangleFeats))
            then (dedupStable (extractPoints triangleFeats)).IsRotated polyL.ring
            else (dedupStable (extractPoints triangleFeats)).reverse.IsRotated polyL.ring)
        ∧ polyL.ring ≠ []
        ∧ (∀ q ∈ polyL.ring, q.y ≤ (polyL.ring.headI).y)
        ∧ (shoelaceS (dedupStable (extractPoints triangleFeats)) ≠ 0 →
            is_clockwise polyL.ring = true)
        ∧ ptsL.feats.length = polyL.ring.length) :=
  ⟨by decide,
    create_polygon_vertex_order (fun _ _ => 0) (fun _ => 0) triangleFeats (by decide)⟩

end FlashCroquis
